import Mathlib

/-!
Gneto: the Gemini client and the gemtext transcoder of `gemini.go`

A shallow embedding of the two functions of `src/gemini.go`:

* `geminiToHTML` reads gemtext line by line and writes HTML to a response writer;
* `proxyGemini` dials a Gemini server, sends the request line, reads the status line
  and dispatches on the status class.

Go strings are embedded as Lean strings (sequences of code points, i.e. valid UTF-8);
every byte test of the source (`status[0]`, the delimiters `\n`, `%`, `<`, the space)
is on an ASCII byte, which is the same test on code points.

Go `error` values are embedded as `Option String`: `none` is `nil`, `some t` is an
error whose `Error()` text is `t`.

The diagnostics of the source (`log.Println`, `log.Printf`, and the echo of every line
under `optDebug`) go to the process log and standard output, never to the response
writer or the connection; they are left out of the embedding, as is the deferred
`conn.Close()`.
-/

namespace Gneto

/-! ## Go values -/

/-- Go `error`: `none` is `nil`, `some t` carries the text of `Error()`. -/
abbrev GoError := Option String

/-- Result of a Go call that may end in a run-time panic instead of returning. -/
inductive Outcome (α : Type) where
  | returned (a : α)
  | panicked (msg : String)
deriving DecidableEq, Repr

/-- The components of Go's `url.URL` that `gemini.go` reads or assigns (`Scheme`, `Host`)
together with the other textual components of a parsed URL. -/
structure URL where
  Scheme : String
  Host : String
  Path : String
  RawPath : String
  RawQuery : String
  Fragment : String
deriving DecidableEq, Repr

/-- The payload handed to the page templates (`var td templateData`). -/
structure templateData where
  URL : String
  Title : String
  Error : String
deriving DecidableEq, Repr

/-! ## Strings: `bufio.Reader.ReadString`, `strings.*` -/

/-- One call of `rd.ReadString(10)` on a reader holding `rd`: the bytes up to and
including the first newline, the bytes left in the reader, and whether the delimiter was
found (`false` means the call returned the remaining bytes together with an error). -/
def ReadString : List Char → List Char × List Char × Bool
  | [] => ([], [], false)
  | c :: cs =>
    if c = '\n' then ([c], cs, true)
    else
      let r := ReadString cs
      (c :: r.1, r.2.1, r.2.2)

/-- The lines a loop `for eof == nil { line, eof = rd.ReadString(10); ... }` sees:
every newline-terminated segment, then the remainder that comes with the read error. -/
def readLinesAux : List Char → List (List Char)
  | [] => [[]]
  | c :: cs =>
    if c = '\n' then [c] :: readLinesAux cs
    else
      match readLinesAux cs with
      | [] => [[c]]
      | l :: ls => (c :: l) :: ls

/-- The lines of a reader's content, as strings. -/
def readLines (rd : String) : List String :=
  (readLinesAux rd.data).map String.mk

/-- Go `strings.ReplaceAll(s, old, new)` for a non-empty `old`, scanning left to right;
`skip` counts the bytes of a match still to be passed over. -/
def replaceAllAux (old new : List Char) : List Char → Nat → List Char
  | [], _ => []
  | _ :: cs, skip + 1 => replaceAllAux old new cs skip
  | c :: cs, 0 =>
    if old.isPrefixOf (c :: cs) then new ++ replaceAllAux old new cs (old.length - 1)
    else c :: replaceAllAux old new cs 0

/-- Go `strings.ReplaceAll` (non-empty `old`). -/
def ReplaceAll (s old new : String) : String :=
  ⟨replaceAllAux old.data new.data s.data 0⟩

/-- Substring test on character lists. -/
def containsAux (sub : List Char) : List Char → Bool
  | [] => sub.isEmpty
  | c :: cs => sub.isPrefixOf (c :: cs) || containsAux sub cs

/-- Go `strings.Contains(s, substr)`. -/
def Contains (s substr : String) : Bool :=
  containsAux substr.data s.data

/-- Go `strings.SplitAfterN(s, " ", 2)`: the text up to and including the first space and
the text after it, or the whole of `s` alone when it has no space. -/
def splitAfterSpace : List Char → List Char × Option (List Char)
  | [] => ([], none)
  | c :: cs =>
    if c = ' ' then ([c], some cs)
    else
      let r := splitAfterSpace cs
      (c :: r.1, r.2)

/-- Element `[1]` of `strings.SplitAfterN(s, " ", 2)`; `none` when the slice has length 1
(the index expression then panics). -/
def SplitAfterN1 (s : String) : Option String :=
  (splitAfterSpace s.data).2.map String.mk

/-- Go `unicode.IsSpace`. -/
def isSpace (c : Char) : Bool :=
  c = '\t' || c = '\n' || c.toNat = 11 || c.toNat = 12 || c = '\r' || c = ' ' ||
  c.toNat = 0x85 || c.toNat = 0xA0 || c.toNat = 0x1680 ||
  (0x2000 ≤ c.toNat && c.toNat ≤ 0x200A) ||
  c.toNat = 0x2028 || c.toNat = 0x2029 || c.toNat = 0x202F || c.toNat = 0x205F ||
  c.toNat = 0x3000

/-- Go `strings.TrimSpace`. -/
def TrimSpace (s : String) : String :=
  ⟨((s.data.dropWhile isSpace).reverse.dropWhile isSpace).reverse⟩

/-! ## `fmt.Fprintf` with a format string and no operands

`proxyGemini` calls `fmt.Fprintf(conn, u.String()+"\r\n")`: the request text is the
*format*, and there are no operands. The functions below follow `(*pp).doPrintf` of
package `fmt` specialised to an empty operand list. -/

/-- The `tooLarge` guard of `fmt`. -/
def tooLarge (x : Nat) : Bool := decide (1000000 < x)

/-- The digit scan of `parsenum` over the bytes from `start` to `end`: the number, whether a
digit was seen, and the bytes left. On overflow it gives up and jumps to `end`. -/
def parsenumAux : Nat → Bool → List Char → Nat × Bool × List Char
  | num, isnum, [] => (num, isnum, [])
  | num, isnum, c :: cs =>
    if '0' ≤ c ∧ c ≤ '9' then
      if tooLarge num then (0, false, [])
      else parsenumAux (num * 10 + (c.toNat - 48)) true cs
    else (num, isnum, c :: cs)

/-- The `parsenum` of `fmt`. -/
def parsenum (cs : List Char) : Nat × Bool × List Char :=
  parsenumAux 0 false cs

/-- The `parseArgNumber` of `fmt` on a format that starts with `[`: the width of the bracketed
index and whether it is a well-formed `[n]`. -/
def parseArgNumber (cs : List Char) : Nat × Bool :=
  if cs.length < 3 then (1, false)
  else
    let inner := cs.tail.takeWhile (fun c => c ≠ ']')
    if inner.length + 1 < cs.length then
      let r := parsenum inner
      if !r.2.1 || r.2.2 ≠ [] then (inner.length + 2, false)
      else (inner.length + 2, true)
    else (1, false)

/-- The `(*pp).argNumber` of `fmt` when there are no operands: an explicit index can never be
in range, so it clears `goodArgNum`. Returns the bytes left, `goodArgNum` and `found`. -/
def argNumber (cs : List Char) (good : Bool) : List Char × Bool × Bool :=
  match cs with
  | '[' :: _ =>
    let r := parseArgNumber cs
    (cs.drop r.1, false, r.2)
  | _ => (cs, good, false)

/-- The flag characters skipped after a `%`. -/
def skipFlags : List Char → List Char
  | [] => []
  | c :: cs =>
    if c = '#' ∨ c = '0' ∨ c = '+' ∨ c = '-' ∨ c = ' ' then skipFlags cs
    else c :: cs

/-- One verb of `doPrintf` with no operands, on the bytes after the `%`: the text it appends
to the output and the bytes left after the verb. -/
def doVerb (cs0 : List Char) : List Char × List Char :=
  let cs1 := skipFlags cs0
  let a1 := argNumber cs1 true
  -- width
  let wd : List Char × Bool × Bool × List Char :=
    match a1.1 with
    | '*' :: t => (t, a1.2.1, false, "%!(BADWIDTH)".data)
    | _ =>
      let r := parsenum a1.1
      (r.2.2, (if a1.2.2 && r.2.1 then false else a1.2.1), a1.2.2, [])
  -- precision
  let pr : List Char × Bool × Bool × List Char :=
    match wd.1 with
    | '.' :: t =>
      let a2 := argNumber t (if wd.2.2.1 then false else wd.2.1)
      match a2.1 with
      | '*' :: t2 => (t2, a2.2.1, false, wd.2.2.2 ++ "%!(BADPREC)".data)
      | _ => ((parsenum a2.1).2.2, a2.2.1, a2.2.2, wd.2.2.2)
    | _ => wd
  let a3 := if pr.2.2.1 then (pr.1, pr.2.1, pr.2.2.1) else argNumber pr.1 pr.2.1
  match a3.1 with
  | [] => (pr.2.2.2 ++ "%!(NOVERB)".data, [])
  | verb :: rest =>
    if verb = '%' then (pr.2.2.2 ++ ['%'], rest)
    else if a3.2.1 = false then (pr.2.2.2 ++ "%!".data ++ [verb] ++ "(BADINDEX)".data, rest)
    else (pr.2.2.2 ++ "%!".data ++ [verb] ++ "(MISSING)".data, rest)

/-- The format loop of `doPrintf` with no operands; `skip` counts the bytes of the verb in
progress that are still to be passed over. -/
def doPrintfAux : List Char → Nat → List Char
  | [], _ => []
  | _ :: cs, skip + 1 => doPrintfAux cs skip
  | c :: cs, 0 =>
    if c = '%' then
      let v := doVerb cs
      v.1 ++ doPrintfAux cs (cs.length - v.2.length)
    else c :: doPrintfAux cs 0

/-- The text `fmt.Fprintf(w, format)` writes when called with no operands. -/
def Sprintf0 (format : String) : String :=
  ⟨doPrintfAux format.data 0⟩

/-! ## The response writer -/

/-- The `http.ResponseWriter` as a fallible writer: `calls` lists the payload of every write
attempted so far, in order, and `failAt n` is the error the `n`-th attempt (from 0) returns,
`none` when that write succeeds. -/
structure Writer where
  failAt : Nat → GoError
  calls : List String

/-- Go `io.WriteString(w, s)`: the writer after the call and the error returned. -/
def Writer.WriteString (w : Writer) (s : String) : Writer × GoError :=
  ({ w with calls := w.calls ++ [s] }, w.failAt w.calls.length)

/-- The payloads that reached the client: the calls whose write did not fail. -/
def Writer.delivered (w : Writer) : List String :=
  (w.calls.enum.filter (fun p => (w.failAt p.1).isNone)).map Prod.snd

/-- Go `http.Error(w, msg, code)`: the body it writes is the message and a newline (the
header fields and the status code are not part of the body). -/
def httpError (w : Writer) (msg : String) (_code : Nat) : Writer :=
  (w.WriteString (msg ++ "\n")).1

/-! ## What `gemini.go` uses and does not define -/

/-- The package-level values and library functions `gemini.go` refers to without defining
them. The compiled patterns `reGem*` and `reStatus`, the resolver `absoluteURL` and the
template set `tmpls` are declared in other files of the package; `urlString`, `urlParse`,
`Port`, `Hostname` and `QueryEscape` are `net/url`.

A pattern that the source only tests with `MatchString` is a predicate. A pattern whose
submatches the source indexes right after a successful `MatchString` gives `some` of the
indexed groups on a match and `none` otherwise. -/
structure Env where
  /-- The pattern `reGemPre.MatchString`. -/
  reGemPre : String → Bool
  /-- The pattern `reGemBlank.MatchString`. -/
  reGemBlank : String → Bool
  /-- The pattern `reGemH1`: group 1 on a match. -/
  reGemH1 : String → Option String
  /-- The pattern `reGemH2`: group 1 on a match. -/
  reGemH2 : String → Option String
  /-- The pattern `reGemH3`: group 1 on a match. -/
  reGemH3 : String → Option String
  /-- The pattern `reGemLink`: groups 1 (target) and 2 (label) on a match. -/
  reGemLink : String → Option (String × String)
  /-- The pattern `reGemList`: group 1 on a match. -/
  reGemList : String → Option String
  /-- The pattern `reGemQuote`: group 1 on a match. -/
  reGemQuote : String → Option String
  /-- The pattern `reStatus.MatchString`. -/
  reStatus : String → Bool
  /-- The resolver `absoluteURL(u, ref)`: a `*url.URL` (`none` is the nil pointer) and an
  error. -/
  absoluteURL : URL → String → Option URL × GoError
  /-- The call `tmpls.ExecuteTemplate(w, name, td)`: the text the template writes and the
  error of the template itself (`none` when it executes). -/
  tmpls : String → templateData → String × GoError
  /-- The method `(*url.URL).String`. -/
  urlString : URL → String
  /-- The function `url.Parse`: the parsed URL, or the error text. -/
  urlParse : String → Except String URL
  /-- The method `(*url.URL).Port`. -/
  Port : URL → String
  /-- The method `(*url.URL).Hostname`. -/
  Hostname : URL → String
  /-- The function `url.QueryEscape`. -/
  QueryEscape : String → String

/-- The call `tmpls.ExecuteTemplate(w, name, td)`: the template text is written to `w`; the
call returns the write error when the write fails and the error of the template otherwise. -/
def ExecuteTemplate (env : Env) (w : Writer) (name : String) (td : templateData) :
    Writer × GoError :=
  let r := w.WriteString (env.tmpls name td).1
  (r.1, match r.2 with
        | some e => some e
        | none => (env.tmpls name td).2)

/-! ## `geminiToHTML` -/

/-- The variables the line loop of `geminiToHTML` carries from one line to the next: the two
flags, the response writer, and the panic that ended the loop, if any. -/
structure Loop where
  list : Bool
  pre : Bool
  w : Writer
  fault : Option String

/-- The local `html` of `geminiToHTML`: declared, never assigned. -/
def html : String := ""

/-- The statement `if list == true { list = false; io.WriteString(w, marker) }`, which the
heading, link and quote branches start with. -/
def closeList (st : Loop) (marker : String) : Loop :=
  if st.list = true then { st with list := false, w := (st.w.WriteString marker).1 }
  else st

/-- The link branch of the loop body (source lines 87 to 115) for a line whose groups are
`target` and `label`. -/
def linkLine (env : Env) (u : URL) (st : Loop) (line target label : String) : Loop :=
  let st := closeList st "</ul>\n"
  let r := env.absoluteURL u target
  let w := if r.2.isSome then (st.w.WriteString (html ++ "<p>" ++ line ++ "</p>\n")).1 else st.w
  match r.1 with
  | none =>
    -- lineURL.String() on the nil pointer
    { st with w := w, fault := some "invalid memory address or nil pointer dereference" }
  | some lineURL =>
    let link1 := env.urlString lineURL
    if lineURL.Scheme = "gemini" then
      if label ≠ "" then
        { st with w := (w.WriteString (html ++ "<p><a href=\"/?url=" ++ env.QueryEscape link1
            ++ "\">" ++ label ++ "</a> <span class=\"scheme\"><a href=\"" ++ link1 ++ "\">["
            ++ lineURL.Scheme ++ "]</a></span></p>" ++ "\n")).1 }
      else
        { st with w := (w.WriteString (html ++ "<p><a href=\"/?url=" ++ env.QueryEscape link1
            ++ "\">" ++ link1 ++ "</a> <span class=\"scheme\"><a href=\"" ++ link1 ++ "\">["
            ++ lineURL.Scheme ++ "]</a></span></p>" ++ "\n")).1 }
    else
      if label ≠ "" then
        { st with w := (w.WriteString (html ++ "<p><a href=\"" ++ link1
            ++ "\">" ++ label ++ "</a> <span class=\"scheme\"><a href=\"" ++ link1 ++ "\">["
            ++ lineURL.Scheme ++ "]</a></span></p>" ++ "\n")).1 }
      else
        { st with w := (w.WriteString (html ++ "<p><a href=\"" ++ link1
            ++ "\">" ++ link1 ++ "</a> <span class=\"scheme\"><a href=\"" ++ link1 ++ "\">["
            ++ lineURL.Scheme ++ "]</a></span></p>" ++ "\n")).1 }

/-- One iteration of the line loop of `geminiToHTML` (source lines 48 to 130) on `line`. The
result of every `io.WriteString` is discarded, as in the source. -/
def geminiLine (env : Env) (u : URL) (st : Loop) (line : String) : Loop :=
  if env.reGemPre line then
    if st.pre = true then
      { st with pre := false, w := (st.w.WriteString "</pre>\n").1 }
    else
      { st with pre := true, w := (st.w.WriteString "<pre>\n").1 }
  else if st.pre = true then
    { st with w := (st.w.WriteString (ReplaceAll line "<" "&lt;")).1 }
  else if env.reGemBlank line then
    { st with w := (st.w.WriteString "<br>\n").1 }
  else
    match env.reGemH1 line with
    | some c =>
      let st := closeList st "</ul>\n"
      { st with w := (st.w.WriteString (html ++ "<h1>" ++ c ++ "</h1>\n")).1 }
    | none =>
    match env.reGemH2 line with
    | some c =>
      let st := closeList st "</ul>\n"
      { st with w := (st.w.WriteString (html ++ "<h2>" ++ c ++ "</h2>\n")).1 }
    | none =>
    match env.reGemH3 line with
    | some c =>
      let st := closeList st "</ul>\n"
      { st with w := (st.w.WriteString (html ++ "<h3>" ++ c ++ "</h3>\n")).1 }
    | none =>
    match env.reGemLink line with
    | some link => linkLine env u st line link.1 link.2
    | none =>
    match env.reGemList line with
    | some c =>
      let st := if st.list = false then
          { st with list := true, w := (st.w.WriteString "<ul>").1 }
        else st
      { st with w := (st.w.WriteString (html ++ "<li>" ++ c ++ "</li>\n")).1 }
    | none =>
    match env.reGemQuote line with
    | some c =>
      let st := closeList st "</ul>"
      { st with w := (st.w.WriteString (html ++ "<blockquote>" ++ c ++ "</blockquote>\n")).1 }
    | none =>
      { st with w := (st.w.WriteString (line ++ "<br>\n")).1 }

/-- The line loop: the iterations in order, stopped by a panic. -/
def geminiLoop (env : Env) (u : URL) : Loop → List String → Loop
  | st, [] => st
  | st, line :: rest =>
    let st1 := geminiLine env u st line
    match st1.fault with
    | some _ => st1
    | none => geminiLoop env u st1 rest

/-- The `td` of `geminiToHTML`: `err` is nil when `td.Error` is considered, so it stays
empty. -/
def pageData (env : Env) (u : URL) : templateData :=
  { URL := env.urlString u, Title := "Gneto " ++ env.urlString u, Error := "" }

/-- The writer after source lines 34 to 38: the header template and, when it failed, the
`http.Error` notice. -/
def headerWriter (env : Env) (w : Writer) (u : URL) : Writer :=
  let r := ExecuteTemplate env w "header-only.html.tmpl" (pageData env u)
  if r.2.isSome then httpError r.1 "Internal Server Error" 500 else r.1

/-- The loop variables when the line loop of `geminiToHTML` ends. -/
def loopEnd (env : Env) (w : Writer) (u : URL) (rd : String) : Loop :=
  geminiLoop env u { list := false, pre := false, w := headerWriter env w u, fault := none }
    (readLines rd)

/-- What a call of `geminiToHTML` leaves behind: the writer, the two flags, and the error
returned (or the panic). -/
structure GemResult where
  w : Writer
  list : Bool
  pre : Bool
  ret : Outcome GoError

/-- The function `geminiToHTML(w, u, rd)`; `rd` is the content left in the reader. -/
def geminiToHTML (env : Env) (w : Writer) (u : URL) (rd : String) : GemResult :=
  let st := loopEnd env w u rd
  match st.fault with
  | some m => { w := st.w, list := st.list, pre := st.pre, ret := .panicked m }
  | none =>
    let r := ExecuteTemplate env st.w "footer-only.html.tmpl" (pageData env u)
    let w1 := if r.2.isSome then httpError r.1 "Internal Server Error" 500 else r.1
    { w := w1, list := st.list, pre := st.pre, ret := .returned r.2 }

/-- The writes of the line loop of `geminiToHTML`, in order: what the transcoder itself
emits between the header and the footer. -/
def bodyCalls (env : Env) (w : Writer) (u : URL) (rd : String) : List String :=
  (loopEnd env w u rd).w.calls.drop (headerWriter env w u).calls.length

/-! ## `proxyGemini` -/

/-- What the network does during one call of `proxyGemini`: the error of `tls.Dial` (`none`
when the connection opens), the bytes the server sends before the stream ends, and the
error that ends the stream (`io.EOF` on a clean close). -/
structure Conn where
  dialErr : GoError
  data : String
  endErr : String

/-- What a call of `proxyGemini` leaves behind: the address dialled, the writes to the
connection, the response writer, the arguments of every `geminiToHTML` call, the value
assigned to the package variable `errRedirect` (if any), and the values returned. -/
structure ProxyResult where
  addr : String
  sent : List String
  w : Writer
  transcoded : List (URL × String)
  errRedirect : Option String
  ret : Outcome (URL × GoError)

/-- The function `proxyGemini(w, u)`. -/
def proxyGemini (env : Env) (conn : Conn) (w : Writer) (u : URL) : ProxyResult :=
  let port := if env.Port u ≠ "" then env.Port u else "1965"
  let addr := env.Hostname u ++ ":" ++ port
  match conn.dialErr with
  | some e =>
    { addr := addr, sent := [], w := w, transcoded := [], errRedirect := none,
      ret := .returned (u, some ("proxyGemini: tls.Dial error to " ++ env.urlString u ++ ": " ++ e)) }
  | none =>
    let sent := [Sprintf0 (env.urlString u ++ "\r\n")]
    let rs := ReadString conn.data.data
    let status : String := ⟨rs.1⟩
    let rd : String := ⟨rs.2.1⟩
    if rs.2.2 = false then
      { addr := addr, sent := sent, w := w, transcoded := [], errRedirect := none,
        ret := .returned (u, some ("proxyGemini: failed to read status line from buffer: "
          ++ conn.endErr)) }
    else if env.reStatus status = false then
      { addr := addr, sent := sent, w := w, transcoded := [], errRedirect := none,
        ret := .returned (u, some ("proxyGemini: invalid status line: " ++ status)) }
    else
      match status.data.head? with
      | none =>
        { addr := addr, sent := sent, w := w, transcoded := [], errRedirect := none,
          ret := .panicked "index out of range [0] with length 0" }
      | some b =>
        if b = '1' then
          -- TODO: Get user input.
          { addr := addr, sent := sent, w := w, transcoded := [], errRedirect := none,
            ret := .returned (u, none) }
        else if b = '2' then
          if Contains status "text/gemini" then
            let g := geminiToHTML env w u rd
            match g.ret with
            | .panicked m =>
              { addr := addr, sent := sent, w := g.w, transcoded := [(u, rd)],
                errRedirect := none, ret := .panicked m }
            | .returned _ =>
              { addr := addr, sent := sent, w := g.w, transcoded := [(u, rd)],
                errRedirect := none, ret := .returned (u, none) }
          else
            { addr := addr, sent := sent, w := w, transcoded := [], errRedirect := none,
              ret := .returned (u, none) }
        else if b = '3' then
          match SplitAfterN1 status with
          | none =>
            { addr := addr, sent := sent, w := w, transcoded := [], errRedirect := none,
              ret := .panicked "index out of range [1] with length 1" }
          | some target =>
            match env.urlParse (TrimSpace target) with
            | .error e =>
              { addr := addr, sent := sent, w := w, transcoded := [], errRedirect := none,
                ret := .returned (u, some ("proxyGemini: can't parse redirect URL " ++ target
                  ++ ": " ++ e)) }
            | .ok ru =>
              let ru := if ru.Host = "" then { ru with Host := u.Host } else ru
              let ru := if ru.Scheme = "" then { ru with Scheme := u.Scheme } else ru
              { addr := addr, sent := sent, w := w, transcoded := [],
                errRedirect := some (env.urlString u),
                ret := .returned (ru, some (env.urlString u)) }
        else
          { addr := addr, sent := sent, w := w, transcoded := [], errRedirect := none,
            ret := .returned (u, some ("proxyGemini: status: " ++ status)) }

/-! ## Vocabulary of the statements -/

/-- The connection opens and the first line the server sends is `status`, newline included,
with `rd` left in the reader behind it. -/
def Conn.Serves (conn : Conn) (status rd : String) : Prop :=
  conn.dialErr = none ∧ ReadString conn.data.data = (status.data, rd.data, true)

/-- The URL a class-3 response makes `proxyGemini` return for the parsed target `ru`: host
and scheme are taken from the request URL `u` where the target has none. -/
def redirectTarget (u ru : URL) : URL :=
  let ru := if ru.Host = "" then { ru with Host := u.Host } else ru
  if ru.Scheme = "" then { ru with Scheme := u.Scheme } else ru

/-- The writes `<pre>` and `</pre>` of the fence branch. -/
def isFenceMarker (s : String) : Bool :=
  s = "<pre>\n" || s = "</pre>\n"

/-- The block markers of `n` successive fence lines, starting from the preformat flag `pre`:
an open when the flag is off, a close when it is on, in alternation. -/
def fenceMarkers : Bool → Nat → List String
  | _, 0 => []
  | false, n + 1 => "<pre>\n" :: fenceMarkers true n
  | true, n + 1 => "</pre>\n" :: fenceMarkers false n

/-- The fence markers among the writes made so far. -/
def markersOf (w : Writer) : List String := w.calls.filter isFenceMarker

/-- The writes that open or close a list container. -/
def isListMarker (s : String) : Bool :=
  s = "<ul>" || s = "</ul>\n" || s = "</ul>"

/-- The line is rendered by the list-item branch of the loop body when read outside
preformat: no earlier pattern matches it and the list pattern does. -/
def IsItem (env : Env) (line : String) : Bool :=
  !env.reGemPre line && !env.reGemBlank line && (env.reGemH1 line).isNone &&
  (env.reGemH2 line).isNone && (env.reGemH3 line).isNone && (env.reGemLink line).isNone &&
  (env.reGemList line).isSome

/-- The line is rendered by a heading, link or quote branch when read outside preformat. -/
def IsCloser (env : Env) (line : String) : Bool :=
  !env.reGemPre line && !env.reGemBlank line &&
  ((env.reGemH1 line).isSome || (env.reGemH2 line).isSome || (env.reGemH3 line).isSome ||
   (env.reGemLink line).isSome || ((env.reGemList line).isNone && (env.reGemQuote line).isSome))

/-- The close marker the branch of a closing line writes: with a newline in the heading and
link branches, without one in the quote branch. -/
def closeMarker (env : Env) (line : String) : String :=
  if (env.reGemH1 line).isSome || (env.reGemH2 line).isSome || (env.reGemH3 line).isSome ||
      (env.reGemLink line).isSome then "</ul>\n"
  else "</ul>"

/-- The list-item element written for a list-item line. -/
def itemText (env : Env) (line : String) : String :=
  match env.reGemList line with
  | some c => html ++ "<li>" ++ c ++ "</li>\n"
  | none => ""

/-- The writes the line loop makes on `lines` when started in state `st`. -/
def loopCalls (env : Env) (u : URL) (st : Loop) (lines : List String) : List String :=
  (geminiLoop env u st lines).w.calls.drop st.w.calls.length

/-- The loop variables when the line loop of `geminiToHTML` starts: both flags off, the
writer as the header left it. -/
def loopStart (env : Env) (w : Writer) (u : URL) : Loop :=
  { list := false, pre := false, w := headerWriter env w u, fault := none }

/-- The loop variables right after the loop body ran on the last line of the body `rd`. -/
def afterLastLine (env : Env) (w : Writer) (u : URL) (rd : String) : Loop :=
  geminiLine env u (geminiLoop env u (loopStart env w u) (readLines rd).dropLast)
    ((readLines rd).getLastD "")

/-- The text of `line` with every `<` replaced by `&lt;` and every other character kept. -/
def escapeLt (line : String) : String :=
  ⟨line.data.flatMap (fun c => if c = '<' then ['&', 'l', 't', ';'] else [c])⟩

/-- The variants of the line classification, as the specification lists them. -/
inductive LineClass where
  | PreformatFence
  | Blank
  | Header1
  | Header2
  | Header3
  | LinkLine
  | ListItem
  | Quote
  | PlainText
deriving DecidableEq, Repr

/-- The priority order of the classification. -/
def classOrder : List LineClass :=
  [.PreformatFence, .Blank, .Header1, .Header2, .Header3, .LinkLine, .ListItem, .Quote,
   .PlainText]

/-- The pattern of a variant matches the line; the fallback matches every line. -/
def matchesClass (env : Env) (line : String) : LineClass → Bool
  | .PreformatFence => env.reGemPre line
  | .Blank => env.reGemBlank line
  | .Header1 => (env.reGemH1 line).isSome
  | .Header2 => (env.reGemH2 line).isSome
  | .Header3 => (env.reGemH3 line).isSome
  | .LinkLine => (env.reGemLink line).isSome
  | .ListItem => (env.reGemList line).isSome
  | .Quote => (env.reGemQuote line).isSome
  | .PlainText => true

/-- The classification of a line: the first variant of `classOrder` whose pattern matches. -/
def classify (env : Env) (line : String) : LineClass :=
  (classOrder.find? (matchesClass env line)).getD .PlainText

/-- The group 1 of a pattern on a line it matches (empty when it does not match). -/
def group1 (re : String → Option String) (line : String) : String :=
  (re line).getD ""

/-- The rendering of a line as one given variant, from the loop state `st`: the fence toggles
the preformat flag and writes its block marker; a blank line is a line break; a heading
closes an open list and writes the heading element; a link line goes through the link
branch; a list item opens a list when none is open and writes the item; a quote closes an
open list and writes the blockquote; plain text is the raw line and a line break. -/
def renderAs (env : Env) (u : URL) (st : Loop) (line : String) : LineClass → Loop
  | .PreformatFence =>
    if st.pre = true then { st with pre := false, w := (st.w.WriteString "</pre>\n").1 }
    else { st with pre := true, w := (st.w.WriteString "<pre>\n").1 }
  | .Blank => { st with w := (st.w.WriteString "<br>\n").1 }
  | .Header1 =>
    { closeList st "</ul>\n" with
      w := ((closeList st "</ul>\n").w.WriteString
        ("<h1>" ++ group1 env.reGemH1 line ++ "</h1>\n")).1 }
  | .Header2 =>
    { closeList st "</ul>\n" with
      w := ((closeList st "</ul>\n").w.WriteString
        ("<h2>" ++ group1 env.reGemH2 line ++ "</h2>\n")).1 }
  | .Header3 =>
    { closeList st "</ul>\n" with
      w := ((closeList st "</ul>\n").w.WriteString
        ("<h3>" ++ group1 env.reGemH3 line ++ "</h3>\n")).1 }
  | .LinkLine =>
    linkLine env u st line ((env.reGemLink line).getD ("", "")).1
      ((env.reGemLink line).getD ("", "")).2
  | .ListItem =>
    if st.list = false then
      { st with list := true,
                w := (((st.w.WriteString "<ul>").1).WriteString
                  ("<li>" ++ group1 env.reGemList line ++ "</li>\n")).1 }
    else
      { st with w := (st.w.WriteString ("<li>" ++ group1 env.reGemList line ++ "</li>\n")).1 }
  | .Quote =>
    { closeList st "</ul>" with
      w := ((closeList st "</ul>").w.WriteString
        ("<blockquote>" ++ group1 env.reGemQuote line ++ "</blockquote>\n")).1 }
  | .PlainText => { st with w := (st.w.WriteString (line ++ "<br>\n")).1 }

/-- The gateway paragraph of a link to the URL text `a` with label `label`: the primary
anchor re-enters the gateway with the escaped target, the badge anchor points at the target
itself. The link text is the label, or the target when the label is empty. -/
def gatewayParagraph (env : Env) (a label : String) : String :=
  "<p><a href=\"/?url=" ++ env.QueryEscape a ++ "\">" ++ (if label = "" then a else label) ++
    "</a> <span class=\"scheme\"><a href=\"" ++ a ++ "\">[gemini]</a></span></p>\n"

/-- The paragraph of a link to the URL text `a` of another scheme `scheme`: both anchors
point at the target itself. -/
def directParagraph (a label scheme : String) : String :=
  "<p><a href=\"" ++ a ++ "\">" ++ (if label = "" then a else label) ++
    "</a> <span class=\"scheme\"><a href=\"" ++ a ++ "\">[" ++ scheme ++ "]</a></span></p>\n"

/-- What one write adds to the number of list containers open in the output: one for the
open marker, minus one for a close marker, nothing for any other write. -/
def listBalance1 (s : String) : Int :=
  if s = "<ul>" then 1 else if s = "</ul>\n" ∨ s = "</ul>" then -1 else 0

/-- The list opens written minus the list closes written. -/
def listBalance (l : List String) : Int :=
  (l.map listBalance1).sum

/-- The list flag as a number: one when set, zero when not. -/
def flagValue (b : Bool) : Int :=
  if b = true then 1 else 0

/-- The reads of the loop `for eof == nil { line, eof = rd.ReadString(10); ... }` with a
bound `fuel` on the number of iterations: the lines read, in order, or `none` when the bound
is reached before a read error ends the loop. -/
def readLoop : Nat → List Char → Option (List (List Char))
  | 0, _ => none
  | fuel + 1, rd =>
    if (ReadString rd).2.2 = true then
      (readLoop fuel (ReadString rd).2.1).map (fun ls => (ReadString rd).1 :: ls)
    else some [(ReadString rd).1]

/-! ## A concrete environment

The theorems below hold for every `Env`. To evaluate the two functions on concrete inputs a
concrete environment is needed; `sampleEnv` is one, with patterns in the gemtext
conventions and a small URL parser and printer. -/

/-- The text after the leading `p`, when `cs` starts with `p`. -/
def afterLead (p cs : List Char) : Option (List Char) :=
  if p.isPrefixOf cs then some (cs.drop p.length) else none

/-- Sample heading pattern of level `n`: `n` number signs not followed by another one; the
group is the rest of the line without the surrounding white space. -/
def sampleHeading (n : Nat) (line : String) : Option String :=
  match afterLead (List.replicate n '#') line.data with
  | some rest => if rest.head? = some '#' then none else some (TrimSpace ⟨rest⟩)
  | none => none

/-- Sample link pattern: `=>`, white space, a target without white space, then the label. -/
def sampleLink (line : String) : Option (String × String) :=
  match afterLead ['=', '>'] line.data with
  | some rest =>
    let r := rest.dropWhile isSpace
    some (⟨r.takeWhile (fun c => !isSpace c)⟩, TrimSpace ⟨r.dropWhile (fun c => !isSpace c)⟩)
  | none => none

/-- Sample pattern for a line that is `lead` followed by text: the group is the text without
the surrounding white space. -/
def sampleLead (lead : List Char) (line : String) : Option String :=
  (afterLead lead line.data).map (fun rest => TrimSpace ⟨rest⟩)

/-- Sample status grammar: a class digit from 1 to 6, a second digit, a space, then
anything. -/
def sampleStatus (status : String) : Bool :=
  match status.data with
  | a :: b :: c :: _ => decide ('1' ≤ a ∧ a ≤ '6') && decide ('0' ≤ b ∧ b ≤ '9') && decide (c = ' ')
  | _ => false

/-- The text before the first `://` and the text after it. -/
def splitScheme : List Char → Option (List Char × List Char)
  | [] => none
  | c :: cs =>
    if [':', '/', '/'].isPrefixOf (c :: cs) then some ([], cs.drop 2)
    else (splitScheme cs).map (fun r => (c :: r.1, r.2))

/-- Sample `url.Parse`: refuses control characters and a leading colon, as `net/url` does;
otherwise splits `scheme://host/path?query`, every part optional. -/
def sampleParse (raw : String) : Except String URL :=
  if raw.data.any (fun c => decide (c.toNat < 32) || decide (c.toNat = 127)) then
    .error ("parse \"" ++ raw ++ "\": net/url: invalid control character in URL")
  else if raw.data.head? = some ':' then
    .error ("parse \"" ++ raw ++ "\": missing protocol scheme")
  else
    let noFrag := raw.data.takeWhile (fun c => c ≠ '#')
    let frag := (raw.data.dropWhile (fun c => c ≠ '#')).drop 1
    let main := noFrag.takeWhile (fun c => c ≠ '?')
    let query := (noFrag.dropWhile (fun c => c ≠ '?')).drop 1
    match splitScheme main with
    | some (scheme, rest) =>
      .ok { Scheme := ⟨scheme⟩, Host := ⟨rest.takeWhile (fun c => c ≠ '/')⟩,
            Path := ⟨rest.dropWhile (fun c => c ≠ '/')⟩, RawPath := "",
            RawQuery := ⟨query⟩, Fragment := ⟨frag⟩ }
    | none =>
      .ok { Scheme := "", Host := "", Path := ⟨main⟩, RawPath := "",
            RawQuery := ⟨query⟩, Fragment := ⟨frag⟩ }

/-- Sample `(*url.URL).String` for URLs whose components need no escaping. -/
def sampleString (u : URL) : String :=
  (if u.Scheme ≠ "" then u.Scheme ++ ":" else "") ++
  (if u.Host ≠ "" then "//" ++ u.Host else "") ++ u.Path ++
  (if u.RawQuery ≠ "" then "?" ++ u.RawQuery else "") ++
  (if u.Fragment ≠ "" then "#" ++ u.Fragment else "")

/-- Sample `absoluteURL`: parse the reference (a nil URL and the error when that fails), then
take scheme and host from the base when the reference has no host, and resolve a path that
does not start with a slash against the directory of the base path. -/
def sampleAbsolute (base : URL) (ref : String) : Option URL × GoError :=
  match sampleParse ref with
  | .error e => (none, some ("absoluteURL: " ++ e))
  | .ok r =>
    if r.Host ≠ "" then (some r, none)
    else
      let dir : List Char := (base.Path.data.reverse.dropWhile (fun c => c ≠ '/')).reverse
      let path : String := if r.Path.data.head? = some '/' then r.Path else ⟨dir ++ r.Path.data⟩
      (some { r with Scheme := base.Scheme, Host := base.Host, Path := path }, none)

/-- Sample `Port`: the digits after the last colon of the host. -/
def samplePort (u : URL) : String :=
  let tail := (u.Host.data.reverse.takeWhile (fun c => c ≠ ':')).reverse
  if tail.length < u.Host.data.length ∧ tail.all (fun c => decide ('0' ≤ c ∧ c ≤ '9')) then ⟨tail⟩
  else ""

/-- Sample `Hostname`: the host without a port. -/
def sampleHostname (u : URL) : String :=
  let tail := (u.Host.data.reverse.takeWhile (fun c => c ≠ ':')).reverse
  if tail.length < u.Host.data.length ∧ tail.all (fun c => decide ('0' ≤ c ∧ c ≤ '9')) then
    ⟨u.Host.data.take (u.Host.data.length - tail.length - 1)⟩
  else u.Host

/-- A hexadecimal digit. -/
def hexDigit (n : Nat) : Char := "0123456789ABCDEF".data.getD n '0'

/-- Sample `url.QueryEscape` on ASCII text: letters, digits and `-_.~` pass, a space becomes
a plus sign, any other character becomes `%XX`. -/
def sampleQueryEscape (s : String) : String :=
  ⟨s.data.flatMap (fun c =>
    if c.isAlphanum ∨ c = '-' ∨ c = '_' ∨ c = '.' ∨ c = '~' then [c]
    else if c = ' ' then ['+']
    else ['%', hexDigit (c.toNat / 16), hexDigit (c.toNat % 16)])⟩

/-- The sample environment. -/
def sampleEnv : Env where
  reGemPre := fun line => ['\x60', '\x60', '\x60'].isPrefixOf line.data
  reGemBlank := fun line => line.data.all isSpace
  reGemH1 := sampleHeading 1
  reGemH2 := sampleHeading 2
  reGemH3 := sampleHeading 3
  reGemLink := sampleLink
  reGemList := sampleLead ['*', ' ']
  reGemQuote := sampleLead ['>']
  reStatus := sampleStatus
  absoluteURL := sampleAbsolute
  tmpls := fun name td => ("<!-- " ++ name ++ " " ++ td.Title ++ " -->\n", none)
  urlString := sampleString
  urlParse := sampleParse
  Port := samplePort
  Hostname := sampleHostname
  QueryEscape := sampleQueryEscape

/-- The sample environment with a resolver that reports an error and still returns a URL
(the base URL) instead of a nil pointer. -/
def lenientEnv : Env :=
  { sampleEnv with absoluteURL := fun base _ => (some base, some "absoluteURL: unresolvable") }

/-- The sample environment with a quote pattern that matches every line, so that patterns
overlap. -/
def overlapEnv : Env :=
  { sampleEnv with reGemQuote := fun line => some line }

/-- A response writer on which every write succeeds, with nothing written yet. -/
def okWriter : Writer := { failAt := fun _ => none, calls := [] }

/-- A response writer whose second write (attempt 1) fails and whose other writes succeed. -/
def flakyWriter : Writer :=
  { failAt := fun n => if n = 1 then some "write: broken pipe" else none, calls := [] }

/-- A response writer on which the first write succeeds and every later write fails. -/
def brokenWriter : Writer :=
  { failAt := fun n => if n = 0 then none else some "write: broken pipe", calls := [] }

/-- The loop variables at the start of a document, on a writer where every write succeeds. -/
def startLoop : Loop := { list := false, pre := false, w := okWriter, fault := none }

/-- The loop variables inside a preformatted block, on a writer where every write
succeeds. -/
def preLoop : Loop := { list := false, pre := true, w := okWriter, fault := none }

/-- The sample request URL `gemini://example.org/a/`. -/
def sampleURL : URL :=
  { Scheme := "gemini", Host := "example.org", Path := "/a/", RawPath := "", RawQuery := "",
    Fragment := "" }

/-- The request URL `gemini://example.org/search?q=a%20b`. -/
def queryURL : URL :=
  { Scheme := "gemini", Host := "example.org", Path := "/search", RawPath := "",
    RawQuery := "q=a%20b", Fragment := "" }

/-- The request URL `gemini://example.org:1970/a/`, with an explicit port. -/
def portURL : URL :=
  { Scheme := "gemini", Host := "example.org:1970", Path := "/a/", RawPath := "", RawQuery := "",
    Fragment := "" }

/-- The parsed redirect target `/new?x=1`: no scheme, no host. -/
def relativeTarget : URL :=
  { Scheme := "", Host := "", Path := "/new", RawPath := "", RawQuery := "x=1", Fragment := "" }

/-- The URL `gemini://example.org/a/b.gmi`. -/
def nextURL : URL :=
  { Scheme := "gemini", Host := "example.org", Path := "/a/b.gmi", RawPath := "", RawQuery := "",
    Fragment := "" }

/-- The URL `https://example.com/x`. -/
def webURL : URL :=
  { Scheme := "https", Host := "example.com", Path := "/x", RawPath := "", RawQuery := "",
    Fragment := "" }

/-- A server that answers `10 Enter query`. -/
def inputConn : Conn := { dialErr := none, data := "10 Enter query\r\n", endErr := "EOF" }

/-- A server that answers `20 text/gemini` with the body `hi`. -/
def pageConn : Conn := { dialErr := none, data := "20 text/gemini\r\nhi\n", endErr := "EOF" }

/-- A server that answers with the relative redirect `30 /new?x=1`. -/
def redirectConn : Conn := { dialErr := none, data := "30 /new?x=1\r\n", endErr := "EOF" }

/-- A server whose first line is empty. -/
def emptyLineConn : Conn := { dialErr := none, data := "\nrest", endErr := "EOF" }

/-- A server that answers `20 text/plain` with a body. -/
def plainConn : Conn := { dialErr := none, data := "20 text/plain\r\nhello\n", endErr := "EOF" }

/-- A server that answers `51 Not found`. -/
def notFoundConn : Conn := { dialErr := none, data := "51 Not found\r\n", endErr := "EOF" }

/-- A body with three fence lines. -/
def fencedBody : String := "\x60\x60\x60\ncode <b>\n\x60\x60\x60\n\x60\x60\x60\n"

/-- The lines on which the body of the line loop ran, in order: the loop stops after the
line on which it panics. -/
def linesRun (env : Env) (u : URL) : Loop → List String → List String
  | _, [] => []
  | st, line :: rest =>
    match (geminiLine env u st line).fault with
    | some _ => [line]
    | none => line :: linesRun env u (geminiLine env u st line) rest

/-- The MIME type a class-2 status line declares, in the words of the specification (the
status digits, a separator, then the MIME-type token): the text after the first space up
to the first semicolon, where the parameters start, without the surrounding white space. -/
def declaredMIME (status : String) : String :=
  match SplitAfterN1 status with
  | none => ""
  | some rest => TrimSpace ⟨rest.data.takeWhile (fun c => c ≠ ';')⟩

/-- A body whose first line is a link with a target that does not resolve, followed by a
fence line. -/
def faultBody : String := "=> :bad\n\x60\x60\x60\n"

/-- A server that answers `20 text/gemini-draft` with the body `hi`. -/
def draftConn : Conn :=
  { dialErr := none, data := "20 text/gemini-draft\r\nhi\n", endErr := "EOF" }

/-- A server that answers `20 text/plain; x=text/gemini` with the body `hi`. -/
def paramConn : Conn :=
  { dialErr := none, data := "20 text/plain; x=text/gemini\r\nhi\n", endErr := "EOF" }

/-! ## Theorems -/

/-! ### The library models -/

/-- The lines of the loop are what repeated `ReadString` calls return: the first call gives
the first line; when it found the delimiter the loop goes on with the bytes left, otherwise
the loop ends after that line. -/
theorem readLinesAux_eq (cs : List Char) :
    readLinesAux cs =
      if (ReadString cs).2.2 = true then (ReadString cs).1 :: readLinesAux (ReadString cs).2.1
      else [(ReadString cs).1] := by
  induction cs with
  | nil => simp [readLinesAux, ReadString]
  | cons c cs ih =>
    by_cases hc : c = '\n'
    · simp [readLinesAux, ReadString, hc]
    · simp only [readLinesAux, ReadString, hc, if_false]
      rw [ih]
      by_cases hf : (ReadString cs).2.2 = true <;> simp [hf]

/-- A format without a percent sign is written as it is. -/
theorem doPrintfAux_of_no_percent (cs : List Char) (h : '%' ∉ cs) : doPrintfAux cs 0 = cs := by
  induction cs with
  | nil => rfl
  | cons c cs ih =>
    have hc : c ≠ '%' := fun e => h (by simp [e])
    have hcs : '%' ∉ cs := fun e => h (List.mem_cons_of_mem _ e)
    simp [doPrintfAux, hc, ih hcs]

/-- When the connection opens, the one write to it is the request URL text put through
`fmt.Fprintf` as a format. -/
theorem proxyGemini_sent (env : Env) (conn : Conn) (w : Writer) (u : URL)
    (hd : conn.dialErr = none) :
    (proxyGemini env conn w u).sent = [Sprintf0 (env.urlString u ++ "\r\n")] := by
  unfold proxyGemini
  simp only [hd]
  repeat' split
  all_goals rfl

/-- When the connection opens and the request URL text has no percent sign, the one write
to the connection is that text followed by the line terminator. -/
theorem proxyGemini_sent_of_no_percent (env : Env) (conn : Conn) (w : Writer) (u : URL)
    (hd : conn.dialErr = none) (h : '%' ∉ (env.urlString u).data) :
    (proxyGemini env conn w u).sent = [env.urlString u ++ "\r\n"] := by
  rw [proxyGemini_sent env conn w u hd]
  have h2 : '%' ∉ (env.urlString u ++ "\r\n").data := by
    intro hm
    have hd2 : (env.urlString u ++ "\r\n").data = (env.urlString u).data ++ ['\r', '\n'] := rfl
    rw [hd2, List.mem_append] at hm
    rcases hm with hm | hm
    · exact h hm
    · revert hm; decide
  simp only [Sprintf0, doPrintfAux_of_no_percent _ h2]

/-! ### The line loop: what every iteration preserves -/

theorem closeList_failAt (st : Loop) (m : String) :
    (closeList st m).w.failAt = st.w.failAt := by
  unfold closeList; split <;> rfl

theorem linkLine_failAt (env : Env) (u : URL) (st : Loop) (line target label : String) :
    (linkLine env u st line target label).w.failAt = st.w.failAt := by
  unfold linkLine
  simp only []
  repeat' split
  all_goals simp [Writer.WriteString, closeList_failAt]

theorem geminiLine_failAt (env : Env) (u : URL) (st : Loop) (line : String) :
    (geminiLine env u st line).w.failAt = st.w.failAt := by
  unfold geminiLine
  repeat' split
  all_goals simp [Writer.WriteString, closeList_failAt, linkLine_failAt]

theorem geminiLoop_failAt (env : Env) (u : URL) (lines : List String) :
    ∀ st : Loop, (geminiLoop env u st lines).w.failAt = st.w.failAt := by
  induction lines with
  | nil => intro st; rfl
  | cons line rest ih =>
    intro st
    simp only [geminiLoop]
    split
    · exact geminiLine_failAt env u st line
    · rw [ih, geminiLine_failAt]

theorem headerWriter_failAt (env : Env) (w : Writer) (u : URL) :
    (headerWriter env w u).failAt = w.failAt := by
  unfold headerWriter ExecuteTemplate httpError
  simp only []
  split <;> rfl

theorem closeList_pre (st : Loop) (m : String) : (closeList st m).pre = st.pre := by
  unfold closeList; split <;> rfl

theorem linkLine_pre (env : Env) (u : URL) (st : Loop) (line target label : String) :
    (linkLine env u st line target label).pre = st.pre := by
  unfold linkLine
  simp only []
  repeat' split
  all_goals simp [closeList_pre]

theorem geminiLine_pre (env : Env) (u : URL) (st : Loop) (line : String) :
    (geminiLine env u st line).pre = (if env.reGemPre line then !st.pre else st.pre) := by
  unfold geminiLine
  repeat' split
  all_goals simp_all [closeList_pre, linkLine_pre]

theorem closeList_fault (st : Loop) (m : String) : (closeList st m).fault = st.fault := by
  unfold closeList; split <;> rfl

theorem linkLine_fault (env : Env) (u : URL) (st : Loop) (line target label : String)
    (hres : (env.absoluteURL u target).1 ≠ none) (h : st.fault = none) :
    (linkLine env u st line target label).fault = none := by
  obtain ⟨lu, hr⟩ := Option.ne_none_iff_exists'.mp hres
  unfold linkLine
  simp only [hr]
  repeat' split
  all_goals simpa [closeList_fault] using h

theorem geminiLine_fault (env : Env) (u : URL) (st : Loop) (line : String)
    (hres : ∀ ref, (env.absoluteURL u ref).1 ≠ none) (h : st.fault = none) :
    (geminiLine env u st line).fault = none := by
  unfold geminiLine
  repeat' split
  all_goals first
    | exact linkLine_fault _ _ _ _ _ _ (hres _) h
    | simpa [closeList_fault] using h

/-- When the resolver never returns a nil URL, the link branch cannot fault and
`geminiToHTML` returns. -/
theorem geminiToHTML_returns (env : Env) (w : Writer) (u : URL) (rd : String)
    (hres : ∀ ref, (env.absoluteURL u ref).1 ≠ none) :
    ∃ e, (geminiToHTML env w u rd).ret = .returned e := by
  have hl : ∀ (lines : List String) (st : Loop), st.fault = none →
      (geminiLoop env u st lines).fault = none := by
    intro lines
    induction lines with
    | nil => intro st h; exact h
    | cons line rest ih =>
      intro st h
      have h1 := geminiLine_fault env u st line hres h
      simp only [geminiLoop, h1]
      exact ih _ h1
  have hf : (loopEnd env w u rd).fault = none := hl _ _ rfl
  unfold geminiToHTML
  simp only [hf]
  exact ⟨_, rfl⟩

theorem loopEnd_fault_of_returned (env : Env) (w : Writer) (u : URL) (rd : String) (e : GoError)
    (hret : (geminiToHTML env w u rd).ret = .returned e) : (loopEnd env w u rd).fault = none := by
  unfold geminiToHTML at hret
  simp only [] at hret
  split at hret
  · simp at hret
  · assumption

theorem closeList_extends (st : Loop) (m : String) : st.w.calls <+: (closeList st m).w.calls := by
  unfold closeList
  split
  · simp [Writer.WriteString]
  · exact List.prefix_refl _

theorem linkLine_extends (env : Env) (u : URL) (st : Loop) (line target label : String) :
    st.w.calls <+: (linkLine env u st line target label).w.calls := by
  have h := closeList_extends st "</ul>\n"
  obtain ⟨t, ht⟩ := h
  unfold linkLine
  simp only []
  repeat' split
  all_goals simp [Writer.WriteString, ← ht, List.append_assoc]

theorem geminiLine_extends (env : Env) (u : URL) (st : Loop) (line : String) :
    st.w.calls <+: (geminiLine env u st line).w.calls := by
  have h1 := closeList_extends st "</ul>\n"
  have h2 := closeList_extends st "</ul>"
  obtain ⟨t1, ht1⟩ := h1
  obtain ⟨t2, ht2⟩ := h2
  unfold geminiLine
  repeat' split
  all_goals first
    | exact linkLine_extends _ _ _ _ _ _
    | simp [Writer.WriteString, ← ht1, ← ht2, List.append_assoc]

theorem geminiLoop_extends (env : Env) (u : URL) (lines : List String) :
    ∀ st : Loop, st.w.calls <+: (geminiLoop env u st lines).w.calls := by
  induction lines with
  | nil => intro st; exact List.prefix_refl _
  | cons line rest ih =>
    intro st
    simp only [geminiLoop]
    split
    · exact geminiLine_extends env u st line
    · exact (geminiLine_extends env u st line).trans (ih _)

theorem loopEnd_calls (env : Env) (w : Writer) (u : URL) (rd : String) :
    (loopEnd env w u rd).w.calls = (headerWriter env w u).calls ++ bodyCalls env w u rd := by
  have h := geminiLoop_extends env u (readLines rd)
    { list := false, pre := false, w := headerWriter env w u, fault := none }
  unfold bodyCalls loopEnd
  exact (List.prefix_iff_eq_append.mp h).symm

theorem geminiLoop_append (env : Env) (u : URL) (a b : List String) :
    ∀ st : Loop, (geminiLoop env u st a).fault = none →
      geminiLoop env u st (a ++ b) = geminiLoop env u (geminiLoop env u st a) b := by
  induction a with
  | nil => intro st _; rfl
  | cons l a ih =>
    intro st h
    simp only [geminiLoop, List.cons_append] at h ⊢
    split at h
    · rename_i m hm; rw [hm] at h; exact absurd h (by simp)
    · exact ih _ h

theorem geminiLoop_single (env : Env) (u : URL) (st : Loop) (l : String) :
    geminiLoop env u st [l] = geminiLine env u st l := by
  simp only [geminiLoop]
  split <;> rfl

/-! ### Fence markers -/

theorem isFenceMarker_of_take (s : String) (k : Nat) (l : List Char)
    (h : s.data.take k = l) (h1 : l ≠ "<pre>\n".data.take k)
    (h2 : l ≠ "</pre>\n".data.take k) : isFenceMarker s = false := by
  unfold isFenceMarker
  simp only [Bool.or_eq_false_iff, decide_eq_false_iff_not]
  constructor
  · intro e; apply h1; rw [← h, e]
  · intro e; apply h2; rw [← h, e]

theorem isFenceMarker_plain (line : String) : isFenceMarker (line ++ "<br>\n") = false := by
  have key : ∀ m : String, (m.data.reverse.take 3 ≠ ['\n', '>', 'r']) → line ++ "<br>\n" ≠ m := by
    intro m hm e
    apply hm
    rw [← e]
    have : (line ++ "<br>\n").data = line.data ++ ['<', 'b', 'r', '>', '\n'] := rfl
    rw [this, List.reverse_append]
    rfl
  unfold isFenceMarker
  simp only [Bool.or_eq_false_iff, decide_eq_false_iff_not]
  exact ⟨key _ (by decide), key _ (by decide)⟩

theorem isFenceMarker_escaped (line : String) :
    isFenceMarker (ReplaceAll line "<" "&lt;") = false := by
  rcases hl : line.data with _ | ⟨c, cs⟩
  · refine isFenceMarker_of_take _ 1 [] ?_ (by decide) (by decide)
    simp [ReplaceAll, hl, replaceAllAux]
  · by_cases hc : c = '<'
    · refine isFenceMarker_of_take _ 1 ['&'] ?_ (by decide) (by decide)
      subst hc
      simp [ReplaceAll, hl, replaceAllAux, List.isPrefixOf]
    · refine isFenceMarker_of_take _ 1 [c] ?_ ?_ ?_
      · have h0 : (['<'] : List Char).isPrefixOf (c :: cs) = false := by
          simp [List.isPrefixOf, Ne.symm hc]
        have hd : ("<" : String).data = ['<'] := rfl
        simp [ReplaceAll, hl, replaceAllAux, hd, h0]
      · intro e; apply hc; simpa using e
      · intro e; apply hc; simpa using e

theorem isFenceMarker_h1 (c : String) : isFenceMarker (html ++ "<h1>" ++ c ++ "</h1>\n") = false :=
  isFenceMarker_of_take _ 2 ['<', 'h'] rfl (by decide) (by decide)

theorem isFenceMarker_h2 (c : String) : isFenceMarker (html ++ "<h2>" ++ c ++ "</h2>\n") = false :=
  isFenceMarker_of_take _ 2 ['<', 'h'] rfl (by decide) (by decide)

theorem isFenceMarker_h3 (c : String) : isFenceMarker (html ++ "<h3>" ++ c ++ "</h3>\n") = false :=
  isFenceMarker_of_take _ 2 ['<', 'h'] rfl (by decide) (by decide)

theorem isFenceMarker_li (c : String) : isFenceMarker (html ++ "<li>" ++ c ++ "</li>\n") = false :=
  isFenceMarker_of_take _ 2 ['<', 'l'] rfl (by decide) (by decide)

theorem isFenceMarker_quote (c : String) :
    isFenceMarker (html ++ "<blockquote>" ++ c ++ "</blockquote>\n") = false :=
  isFenceMarker_of_take _ 2 ['<', 'b'] rfl (by decide) (by decide)

theorem isFenceMarker_para (line : String) :
    isFenceMarker (html ++ "<p>" ++ line ++ "</p>\n") = false :=
  isFenceMarker_of_take _ 3 ['<', 'p', '>'] rfl (by decide) (by decide)

theorem isFenceMarker_gateway (a b c d : String) :
    isFenceMarker (html ++ "<p><a href=\"/?url=" ++ a ++ "\">" ++ b
      ++ "</a> <span class=\"scheme\"><a href=\"" ++ c ++ "\">[" ++ d
      ++ "]</a></span></p>" ++ "\n") = false :=
  isFenceMarker_of_take _ 3 ['<', 'p', '>'] rfl (by decide) (by decide)

theorem isFenceMarker_direct (a b c d : String) :
    isFenceMarker (html ++ "<p><a href=\"" ++ a ++ "\">" ++ b
      ++ "</a> <span class=\"scheme\"><a href=\"" ++ c ++ "\">[" ++ d
      ++ "]</a></span></p>" ++ "\n") = false :=
  isFenceMarker_of_take _ 3 ['<', 'p', '>'] rfl (by decide) (by decide)

theorem markersOf_WriteString (w : Writer) (s : String) :
    markersOf (w.WriteString s).1 = markersOf w ++ (if isFenceMarker s then [s] else []) := by
  cases h : isFenceMarker s <;> simp [markersOf, Writer.WriteString, List.filter_append, h]

theorem markersOf_closeList (st : Loop) (m : String) (hm : isFenceMarker m = false) :
    markersOf (closeList st m).w = markersOf st.w := by
  unfold closeList
  split
  · simp [markersOf_WriteString, hm]
  · rfl

theorem markersOf_linkLine (env : Env) (u : URL) (st : Loop) (line target label : String) :
    markersOf (linkLine env u st line target label).w = markersOf st.w := by
  have hc : isFenceMarker "</ul>\n" = false := by decide
  unfold linkLine
  simp only []
  repeat' split
  all_goals simp [markersOf_WriteString, markersOf_closeList, hc, isFenceMarker_para,
    isFenceMarker_gateway, isFenceMarker_direct]

theorem geminiLine_markers (env : Env) (u : URL) (st : Loop) (line : String) :
    markersOf (geminiLine env u st line).w =
      markersOf st.w ++ (if env.reGemPre line then fenceMarkers st.pre 1 else []) := by
  have hc : isFenceMarker "</ul>\n" = false := by decide
  have hc2 : isFenceMarker "</ul>" = false := by decide
  have ho : isFenceMarker "<ul>" = false := by decide
  have hb : isFenceMarker "<br>\n" = false := by decide
  have hp : isFenceMarker "<pre>\n" = true := by decide
  have hq : isFenceMarker "</pre>\n" = true := by decide
  unfold geminiLine
  repeat' split
  all_goals simp_all [markersOf_WriteString, markersOf_closeList, markersOf_linkLine,
    isFenceMarker_h1, isFenceMarker_h2, isFenceMarker_h3, isFenceMarker_li,
    isFenceMarker_quote, isFenceMarker_plain, isFenceMarker_escaped, fenceMarkers]

theorem parity_step (b : Bool) (n : Nat) :
    (b != decide ((n + 1) % 2 = 1)) = ((!b) != decide (n % 2 = 1)) := by
  rcases Nat.mod_two_eq_zero_or_one n with h | h <;> cases b <;> simp [h, Nat.add_mod]

theorem fenceMarkers_succ (b : Bool) (n : Nat) :
    fenceMarkers b (n + 1) = fenceMarkers b 1 ++ fenceMarkers (!b) n := by
  cases b <;> simp [fenceMarkers]

theorem fenceMarkers_count (n : Nat) : ∀ b : Bool,
    (fenceMarkers b n).count "<pre>\n" = (if b then n / 2 else (n + 1) / 2) ∧
    (fenceMarkers b n).count "</pre>\n" = (if b then (n + 1) / 2 else n / 2) := by
  induction n with
  | zero => intro b; cases b <;> simp [fenceMarkers]
  | succ n ih =>
    intro b
    have ht := ih true
    have hf := ih false
    simp only [if_true, Bool.false_eq_true, if_false] at ht hf
    cases b
    · simp only [fenceMarkers, List.count_cons, ht.1, ht.2]
      constructor <;> (simp; try omega)
    · simp only [fenceMarkers, List.count_cons, hf.1, hf.2]
      constructor <;> (simp; try omega)

theorem geminiLoop_markers (env : Env) (u : URL) (lines : List String) :
    ∀ st : Loop, (geminiLoop env u st lines).fault = none →
      markersOf (geminiLoop env u st lines).w =
        markersOf st.w ++ fenceMarkers st.pre (lines.filter env.reGemPre).length ∧
      (geminiLoop env u st lines).pre =
        (st.pre != decide ((lines.filter env.reGemPre).length % 2 = 1)) := by
  induction lines with
  | nil => intro st _; simp [geminiLoop, fenceMarkers]
  | cons line rest ih =>
    intro st hf
    simp only [geminiLoop] at hf ⊢
    split at hf
    · rename_i m hm
      rw [hm] at hf
      exact absurd hf (by simp)
    · obtain ⟨h1, h2⟩ := ih _ hf
      rw [h1, h2, geminiLine_markers, geminiLine_pre]
      by_cases hp : env.reGemPre line = true
      · have hfc : (line :: rest).filter env.reGemPre = line :: rest.filter env.reGemPre :=
          List.filter_cons_of_pos hp
        rw [hfc, List.length_cons, parity_step,
          fenceMarkers_succ st.pre (rest.filter env.reGemPre).length]
        simp only [hp, if_true, List.append_assoc, and_self]
      · simp only [Bool.not_eq_true] at hp
        simp [hp]

/-! ### List markers -/

theorem isListMarker_of_take (s : String) (l : List Char)
    (h : s.data.take 2 = l) (h1 : l ≠ ['<', 'u']) (h2 : l ≠ ['<', '/']) :
    isListMarker s = false := by
  unfold isListMarker
  simp only [Bool.or_eq_false_iff, decide_eq_false_iff_not]
  refine ⟨⟨?_, ?_⟩, ?_⟩
  · intro e; apply h1; rw [← h, e]; rfl
  · intro e; apply h2; rw [← h, e]; rfl
  · intro e; apply h2; rw [← h, e]; rfl

theorem isListMarker_h1 (c : String) : isListMarker (html ++ "<h1>" ++ c ++ "</h1>\n") = false :=
  isListMarker_of_take _ ['<', 'h'] rfl (by decide) (by decide)

theorem isListMarker_h2 (c : String) : isListMarker (html ++ "<h2>" ++ c ++ "</h2>\n") = false :=
  isListMarker_of_take _ ['<', 'h'] rfl (by decide) (by decide)

theorem isListMarker_h3 (c : String) : isListMarker (html ++ "<h3>" ++ c ++ "</h3>\n") = false :=
  isListMarker_of_take _ ['<', 'h'] rfl (by decide) (by decide)

theorem isListMarker_li (c : String) : isListMarker (html ++ "<li>" ++ c ++ "</li>\n") = false :=
  isListMarker_of_take _ ['<', 'l'] rfl (by decide) (by decide)

theorem isListMarker_quote (c : String) :
    isListMarker (html ++ "<blockquote>" ++ c ++ "</blockquote>\n") = false :=
  isListMarker_of_take _ ['<', 'b'] rfl (by decide) (by decide)

theorem isListMarker_para (line : String) :
    isListMarker (html ++ "<p>" ++ line ++ "</p>\n") = false :=
  isListMarker_of_take _ ['<', 'p'] rfl (by decide) (by decide)

theorem isListMarker_gateway (a b c d : String) :
    isListMarker (html ++ "<p><a href=\"/?url=" ++ a ++ "\">" ++ b
      ++ "</a> <span class=\"scheme\"><a href=\"" ++ c ++ "\">[" ++ d
      ++ "]</a></span></p>" ++ "\n") = false :=
  isListMarker_of_take _ ['<', 'p'] rfl (by decide) (by decide)

theorem isListMarker_direct (a b c d : String) :
    isListMarker (html ++ "<p><a href=\"" ++ a ++ "\">" ++ b
      ++ "</a> <span class=\"scheme\"><a href=\"" ++ c ++ "\">[" ++ d
      ++ "]</a></span></p>" ++ "\n") = false :=
  isListMarker_of_take _ ['<', 'p'] rfl (by decide) (by decide)

theorem isListMarker_itemText (env : Env) (l : String) (hl : IsItem env l = true) :
    isListMarker (itemText env l) = false := by
  simp only [IsItem, Bool.and_eq_true, Option.isSome_iff_exists] at hl
  obtain ⟨_, c, h7⟩ := hl
  simp only [itemText, h7]
  exact isListMarker_li c

theorem item_step (env : Env) (u : URL) (st : Loop) (l : String)
    (hpre : st.pre = false) (hfault : st.fault = none) (hl : IsItem env l = true) :
    (geminiLine env u st l).w.calls =
      st.w.calls ++ (if st.list = false then ["<ul>"] else []) ++ [itemText env l] ∧
    (geminiLine env u st l).list = true ∧ (geminiLine env u st l).pre = false ∧
    (geminiLine env u st l).fault = none := by
  simp only [IsItem, Bool.and_eq_true, Bool.not_eq_true', Option.isNone_iff_eq_none,
    Option.isSome_iff_exists] at hl
  obtain ⟨⟨⟨⟨⟨⟨h1, h2⟩, h3⟩, h4⟩, h5⟩, h6⟩, c, h7⟩ := hl
  cases hlist : st.list <;>
    simp [geminiLine, h1, h2, h3, h4, h5, h6, h7, hpre, hfault, hlist, itemText,
      Writer.WriteString]

theorem run_loop (env : Env) (u : URL) (rest : List String) :
    ∀ (st : Loop) (l : String), st.pre = false → st.fault = none →
      (∀ x ∈ l :: rest, IsItem env x = true) →
      (geminiLoop env u st (l :: rest)).w.calls =
        st.w.calls ++ (if st.list = false then ["<ul>"] else []) ++
          (l :: rest).map (itemText env) ∧
      (geminiLoop env u st (l :: rest)).list = true ∧
      (geminiLoop env u st (l :: rest)).pre = false ∧
      (geminiLoop env u st (l :: rest)).fault = none := by
  induction rest with
  | nil =>
    intro st l hpre hfault hit
    obtain ⟨h1, h2, h3, h4⟩ := item_step env u st l hpre hfault (hit l (by simp))
    simp only [geminiLoop, h4]
    exact ⟨by simpa using h1, h2, h3, trivial⟩
  | cons l2 rest ih =>
    intro st l hpre hfault hit
    obtain ⟨h1, h2, h3, h4⟩ := item_step env u st l hpre hfault (hit l (by simp))
    have hrest : ∀ x ∈ l2 :: rest, IsItem env x = true := fun x hx =>
      hit x (List.mem_cons_of_mem _ hx)
    obtain ⟨g1, g2, g3, g4⟩ := ih (geminiLine env u st l) l2 h3 h4 hrest
    have hstep : geminiLoop env u st (l :: l2 :: rest) =
        geminiLoop env u (geminiLine env u st l) (l2 :: rest) := by
      conv_lhs => rw [geminiLoop]
      simp only [h4]
    rw [hstep]
    refine ⟨?_, g2, g3, g4⟩
    rw [g1, h1, h2]
    simp

theorem closer_step (env : Env) (u : URL) (st : Loop) (next : String)
    (hpre : st.pre = false) (hlist : st.list = true) (hn : IsCloser env next = true) :
    st.w.calls ++ [closeMarker env next] <+: (geminiLine env u st next).w.calls ∧
    ((geminiLine env u st next).w.calls.drop st.w.calls.length).filter isListMarker =
      [closeMarker env next] ∧
    (geminiLine env u st next).list = false := by
  have hc : isListMarker "</ul>\n" = true := by decide
  have hc2 : isListMarker "</ul>" = true := by decide
  simp only [IsCloser, Bool.and_eq_true, Bool.not_eq_true', Bool.or_eq_true] at hn
  obtain ⟨⟨h1, h2⟩, h3⟩ := hn
  cases e1 : env.reGemH1 next with
  | some c =>
    simp [geminiLine, closeMarker, closeList, Writer.WriteString, h1, h2, e1, hpre, hlist, hc,
      isListMarker_h1]
  | none =>
  cases e2 : env.reGemH2 next with
  | some c =>
    simp [geminiLine, closeMarker, closeList, Writer.WriteString, h1, h2, e1, e2, hpre, hlist,
      hc, isListMarker_h2]
  | none =>
  cases e3 : env.reGemH3 next with
  | some c =>
    simp [geminiLine, closeMarker, closeList, Writer.WriteString, h1, h2, e1, e2, e3, hpre,
      hlist, hc, isListMarker_h3]
  | none =>
  cases e4 : env.reGemLink next with
  | some link =>
    simp only [geminiLine, closeMarker, h1, h2, e1, e2, e3, e4, hpre, linkLine, closeList, hlist]
    simp only [Writer.WriteString]
    repeat' split
    all_goals simp_all [hc, isListMarker_para, isListMarker_gateway, isListMarker_direct]
  | none =>
    simp only [e1, e2, e3, e4, Option.isSome_none, Bool.false_eq_true, false_or,
      Bool.and_eq_true, Option.isNone_iff_eq_none, Option.isSome_iff_exists] at h3
    obtain ⟨e5, c, e6⟩ := h3
    simp [geminiLine, closeMarker, closeList, Writer.WriteString, h1, h2, e1, e2, e3, e4, e5, e6,
      hpre, hlist, hc2, isListMarker_quote]

/-! ### The status dispatch -/

/-- For every status line of class 1 that the status pattern accepts, `proxyGemini` writes
nothing, transcodes nothing, and returns the request URL with a nil error. -/
theorem proxyGemini_class1 (env : Env) (conn : Conn) (w : Writer) (u : URL)
    (status rd : String) (hs : conn.Serves status rd) (hm : env.reStatus status = true)
    (h1 : status.data.head? = some '1') :
    (proxyGemini env conn w u).ret = .returned (u, none) ∧
    (proxyGemini env conn w u).w = w ∧ (proxyGemini env conn w u).transcoded = [] := by
  obtain ⟨hd, hr⟩ := hs
  simp [proxyGemini, hd, hr, hm, h1]

/-- The sample URLs dial `example.org:1965` (no port in the URL) and `example.org:1970`
(port 1970 in the URL). -/
theorem proxyGemini_endpoint_sample :
    (proxyGemini sampleEnv notFoundConn okWriter sampleURL).addr = "example.org:1965" ∧
    (proxyGemini sampleEnv notFoundConn okWriter portURL).addr = "example.org:1970" := by
  decide

/-! ### Preformatted lines, classification and links -/

/-- For the one-character pattern `<`, `strings.ReplaceAll` rewrites character by character:
the result is the text with every `<` replaced and nothing else changed. -/
theorem ReplaceAll_lt (line : String) : ReplaceAll line "<" "&lt;" = escapeLt line := by
  have key : ∀ cs : List Char, replaceAllAux ['<'] ['&', 'l', 't', ';'] cs 0 =
      cs.flatMap (fun c => if c = '<' then ['&', 'l', 't', ';'] else [c]) := by
    intro cs
    induction cs with
    | nil => rfl
    | cons c cs ih =>
      by_cases hc : c = '<'
      · subst hc
        simp [replaceAllAux, List.isPrefixOf, ih]
      · have h0 : (['<'] : List Char).isPrefixOf (c :: cs) = false := by
          simp [List.isPrefixOf, Ne.symm hc]
        simp [replaceAllAux, h0, hc, ih]
  have h1 : ("<" : String).data = ['<'] := rfl
  have h2 : ("&lt;" : String).data = ['&', 'l', 't', ';'] := rfl
  simp only [ReplaceAll, escapeLt, h1, h2, key]

theorem empty_append_string (s : String) : "" ++ s = s := by
  apply String.ext
  simp

/-- What the classification as a link line says about the patterns: no earlier pattern
matches and the link pattern does. -/
theorem classify_link (env : Env) (line : String) (h : classify env line = .LinkLine) :
    env.reGemPre line = false ∧ env.reGemBlank line = false ∧ env.reGemH1 line = none ∧
    env.reGemH2 line = none ∧ env.reGemH3 line = none := by
  unfold classify classOrder at h
  simp only [List.find?, matchesClass] at h
  cases h1 : env.reGemPre line <;> cases h2 : env.reGemBlank line <;>
    cases h3 : env.reGemH1 line <;> cases h4 : env.reGemH2 line <;>
    cases h5 : env.reGemH3 line <;> simp_all

theorem geminiLine_eq_renderAs (env : Env) (u : URL) (st : Loop) (line : String)
    (h : st.pre = false ∨ env.reGemPre line = true) :
    geminiLine env u st line = renderAs env u st line (classify env line) := by
  cases hP : env.reGemPre line with
  | true => simp [geminiLine, renderAs, classify, classOrder, List.find?, matchesClass, hP]
  | false =>
    have hpre : st.pre = false := by simpa [hP] using h
    cases hB : env.reGemBlank line with
    | true =>
      simp [geminiLine, renderAs, classify, classOrder, List.find?, matchesClass, hP, hB, hpre]
    | false =>
    cases h1 : env.reGemH1 line with
    | some c =>
      simp [geminiLine, renderAs, classify, classOrder, List.find?, matchesClass, hP, hB, hpre,
        h1, group1, html, empty_append_string]
    | none =>
    cases h2 : env.reGemH2 line with
    | some c =>
      simp [geminiLine, renderAs, classify, classOrder, List.find?, matchesClass, hP, hB, hpre,
        h1, h2, group1, html, empty_append_string]
    | none =>
    cases h3 : env.reGemH3 line with
    | some c =>
      simp [geminiLine, renderAs, classify, classOrder, List.find?, matchesClass, hP, hB, hpre,
        h1, h2, h3, group1, html, empty_append_string]
    | none =>
    cases h4 : env.reGemLink line with
    | some l =>
      simp [geminiLine, renderAs, classify, classOrder, List.find?, matchesClass, hP, hB, hpre,
        h1, h2, h3, h4]
    | none =>
    cases h5 : env.reGemList line with
    | some c =>
      cases hl : st.list <;>
      simp [geminiLine, renderAs, classify, classOrder, List.find?, matchesClass, hP, hB, hpre,
        h1, h2, h3, h4, h5, hl, group1, html, empty_append_string]
    | none =>
    cases h6 : env.reGemQuote line with
    | some c =>
      simp [geminiLine, renderAs, classify, classOrder, List.find?, matchesClass, hP, hB, hpre,
        h1, h2, h3, h4, h5, h6, group1, html, empty_append_string]
    | none =>
      simp [geminiLine, renderAs, classify, classOrder, List.find?, matchesClass, hP, hB, hpre,
        h1, h2, h3, h4, h5, h6]

theorem classify_matches (env : Env) (line : String) :
    matchesClass env line (classify env line) = true := by
  unfold classify classOrder
  simp only [List.find?, matchesClass]
  cases hP : env.reGemPre line <;> cases hB : env.reGemBlank line <;>
    cases h1 : env.reGemH1 line <;> cases h2 : env.reGemH2 line <;>
    cases h3 : env.reGemH3 line <;> cases h4 : env.reGemLink line <;>
    cases h5 : env.reGemList line <;> cases h6 : env.reGemQuote line <;>
    simp_all [matchesClass]

theorem indexOf_find_le {α : Type} [DecidableEq α] (p : α → Bool) (d k : α) (hk : p k = true) :
    ∀ l : List α, k ∈ l → l.indexOf ((l.find? p).getD d) ≤ l.indexOf k := by
  intro l
  induction l with
  | nil => intro h; simp at h
  | cons a t ih =>
    intro hmem
    by_cases ha : p a = true
    · simp [List.find?, ha, List.indexOf_cons]
    · have hka : a ≠ k := fun e => ha (e ▸ hk)
      have hkt : k ∈ t := by
        rcases List.mem_cons.mp hmem with e | e
        · exact absurd e.symm hka
        · exact e
      have hfa : p a = false := by simpa using ha
      obtain ⟨x, hx⟩ : ∃ x, t.find? p = some x := by
        cases hf : t.find? p with
        | none => exact absurd hk (by simpa using (List.find?_eq_none.mp hf) k hkt)
        | some x => exact ⟨x, rfl⟩
      have hpx : p x = true := List.find?_some hx
      have hxa : a ≠ x := fun e => ha (e ▸ hpx)
      have := ih hkt
      simp only [hx, Option.getD_some] at this
      simp [List.find?, hfa, hx, List.indexOf_cons, hka, hxa, this]

theorem classify_earliest (env : Env) (line : String) (k : LineClass)
    (hk : matchesClass env line k = true) :
    classOrder.indexOf (classify env line) ≤ classOrder.indexOf k :=
  indexOf_find_le (matchesClass env line) .PlainText k hk classOrder (by cases k <;> decide)

theorem gateway_text (x t a : String) :
    html ++ "<p><a href=\"/?url=" ++ x ++ "\">" ++ t ++ "</a> <span class=\"scheme\"><a href=\""
      ++ a ++ "\">[" ++ "gemini" ++ "]</a></span></p>" ++ "\n" =
    "<p><a href=\"/?url=" ++ x ++ "\">" ++ t ++ "</a> <span class=\"scheme\"><a href=\"" ++ a ++
      "\">[gemini]</a></span></p>\n" := by
  have h : "\">[" ++ ("gemini" ++ ("]</a></span></p>" ++ "\n")) = "\">[gemini]</a></span></p>\n" := by
    decide
  simp only [html, empty_append_string, String.append_assoc, h]

theorem direct_text (t a s : String) :
    html ++ "<p><a href=\"" ++ a ++ "\">" ++ t ++ "</a> <span class=\"scheme\"><a href=\""
      ++ a ++ "\">[" ++ s ++ "]</a></span></p>" ++ "\n" =
    "<p><a href=\"" ++ a ++ "\">" ++ t ++ "</a> <span class=\"scheme\"><a href=\"" ++ a ++
      "\">[" ++ s ++ "]</a></span></p>\n" := by
  have h : "]</a></span></p>" ++ "\n" = "]</a></span></p>\n" := by decide
  simp only [html, empty_append_string, String.append_assoc, h]

/-! ### The end of the stream -/

theorem readLinesAux_ne_nil (cs : List Char) : readLinesAux cs ≠ [] := by
  cases cs with
  | nil => simp [readLinesAux]
  | cons c cs =>
    simp only [readLinesAux]
    split
    · simp
    · split <;> simp

theorem readLines_ne_nil (rd : String) : readLines rd ≠ [] := by
  simp [readLines, readLinesAux_ne_nil]

theorem dropLast_append_getLastD {α : Type} (d : α) :
    ∀ l : List α, l ≠ [] → l.dropLast ++ [l.getLastD d] = l := by
  intro l
  induction l with
  | nil => intro h; exact absurd rfl h
  | cons a t ih =>
    intro _
    cases t with
    | nil => rfl
    | cons b t =>
      have := ih (by simp)
      simp only [List.dropLast_cons₂, List.cons_append, List.getLastD_cons] at this ⊢
      rw [this]

theorem loopEnd_eq (env : Env) (w : Writer) (u : URL) (rd : String) :
    loopEnd env w u rd = geminiLoop env u (loopStart env w u) (readLines rd) := rfl

theorem geminiLoop_fault_of_append (env : Env) (u : URL) (a b : List String) :
    ∀ st : Loop, st.fault = none → (geminiLoop env u st (a ++ b)).fault = none →
      (geminiLoop env u st a).fault = none := by
  induction a with
  | nil => intro st h _; exact h
  | cons l a ih =>
    intro st _ h
    simp only [geminiLoop, List.cons_append] at h ⊢
    split at h
    · rename_i m hm; rw [hm] at h; exact absurd h (by simp)
    · rename_i hm
      exact ih _ hm h

theorem loopEnd_eq_afterLastLine (env : Env) (w : Writer) (u : URL) (rd : String)
    (hf : (loopEnd env w u rd).fault = none) :
    loopEnd env w u rd = afterLastLine env w u rd := by
  have hl := dropLast_append_getLastD "" (readLines rd) (readLines_ne_nil rd)
  rw [loopEnd_eq] at hf ⊢
  rw [← hl] at hf ⊢
  have h1 := geminiLoop_fault_of_append env u _ _ (loopStart env w u) rfl hf
  rw [geminiLoop_append env u _ _ _ h1, geminiLoop_single]
  simp only [afterLastLine, hl]

/-! ### The balance of list markers -/

theorem listBalance1_of_not_marker (s : String) (h : isListMarker s = false) :
    listBalance1 s = 0 := by
  simp only [isListMarker, Bool.or_eq_false_iff, decide_eq_false_iff_not] at h
  simp [listBalance1, h.1.1, h.1.2, h.2]

theorem listBalance_append (a b : List String) :
    listBalance (a ++ b) = listBalance a + listBalance b := by
  simp [listBalance]

theorem listBalance_write (w : Writer) (s : String) :
    listBalance (w.WriteString s).1.calls = listBalance w.calls + listBalance1 s := by
  simp [Writer.WriteString, listBalance]

theorem isListMarker_plain (line : String) : isListMarker (line ++ "<br>\n") = false := by
  have key : ∀ m : String, (m.data.reverse.take 3 ≠ ['\n', '>', 'r']) → line ++ "<br>\n" ≠ m := by
    intro m hm e
    apply hm
    rw [← e]
    have : (line ++ "<br>\n").data = line.data ++ ['<', 'b', 'r', '>', '\n'] := rfl
    rw [this, List.reverse_append]
    rfl
  unfold isListMarker
  simp only [Bool.or_eq_false_iff, decide_eq_false_iff_not]
  exact ⟨⟨key _ (by decide), key _ (by decide)⟩, key _ (by decide)⟩

theorem isListMarker_escaped (line : String) :
    isListMarker (ReplaceAll line "<" "&lt;") = false := by
  rcases hl : line.data with _ | ⟨c, cs⟩
  · have h0 : ReplaceAll line "<" "&lt;" = "" := by
      simp [ReplaceAll, hl, replaceAllAux]
    rw [h0]; decide
  · have hne : ∀ l2 : List Char, (ReplaceAll line "<" "&lt;").data.take 1 ≠ '<' :: l2 := by
      intro l2
      by_cases hc : c = '<'
      · subst hc
        simp [ReplaceAll, hl, replaceAllAux, List.isPrefixOf]
      · have h0 : (['<'] : List Char).isPrefixOf (c :: cs) = false := by
          simp [List.isPrefixOf, Ne.symm hc]
        have hd : ("<" : String).data = ['<'] := rfl
        simp [ReplaceAll, hl, replaceAllAux, hd, h0, hc]
    unfold isListMarker
    simp only [Bool.or_eq_false_iff, decide_eq_false_iff_not]
    refine ⟨⟨?_, ?_⟩, ?_⟩ <;> intro e <;> exact hne [] (by rw [e]; rfl)

theorem closeList_balance (st : Loop) (m : String) (hm : listBalance1 m = -1) :
    listBalance (closeList st m).w.calls + flagValue st.list =
      listBalance st.w.calls + flagValue (closeList st m).list := by
  unfold closeList
  cases hl : st.list <;> simp [listBalance_write, hm, flagValue, hl]

theorem closeList_list (st : Loop) (m : String) : (closeList st m).list = false := by
  unfold closeList
  cases hl : st.list <;> simp [hl]

theorem linkLine_balance (env : Env) (u : URL) (st : Loop) (line target label : String) :
    listBalance (linkLine env u st line target label).w.calls + flagValue st.list =
      listBalance st.w.calls + flagValue (linkLine env u st line target label).list := by
  have hc := closeList_balance st "</ul>\n" (by decide)
  have b1 := fun l => listBalance1_of_not_marker _ (isListMarker_para l)
  have b2 := fun a b c d => listBalance1_of_not_marker _ (isListMarker_gateway a b c d)
  have b3 := fun a b c d => listBalance1_of_not_marker _ (isListMarker_direct a b c d)
  unfold linkLine
  simp only []
  repeat' split
  all_goals simp only [listBalance_write, b1, b2, b3, add_zero]
  all_goals exact hc

theorem geminiLine_balance (env : Env) (u : URL) (st : Loop) (line : String) :
    listBalance (geminiLine env u st line).w.calls + flagValue st.list =
      listBalance st.w.calls + flagValue (geminiLine env u st line).list := by
  have hc := closeList_balance st "</ul>\n" (by decide)
  have hc2 := closeList_balance st "</ul>" (by decide)
  have b1 := fun c => listBalance1_of_not_marker _ (isListMarker_h1 c)
  have b2 := fun c => listBalance1_of_not_marker _ (isListMarker_h2 c)
  have b3 := fun c => listBalance1_of_not_marker _ (isListMarker_h3 c)
  have b4 := fun c => listBalance1_of_not_marker _ (isListMarker_li c)
  have b5 := fun c => listBalance1_of_not_marker _ (isListMarker_quote c)
  have b6 := fun c => listBalance1_of_not_marker _ (isListMarker_plain c)
  have b7 := fun c => listBalance1_of_not_marker _ (isListMarker_escaped c)
  have b8 : listBalance1 "<pre>\n" = 0 := by decide
  have b9 : listBalance1 "</pre>\n" = 0 := by decide
  have b10 : listBalance1 "<br>\n" = 0 := by decide
  have b11 : listBalance1 "<ul>" = 1 := by decide
  unfold geminiLine
  repeat' split
  all_goals first
    | exact linkLine_balance _ _ _ _ _ _
    | (simp only [listBalance_write, b1, b2, b3, b4, b5, b6, b7, b8, b9, b10, add_zero]
       try first
         | rfl
         | exact hc
         | exact hc2
         | simp_all [flagValue, listBalance_write])

theorem geminiLoop_balance (env : Env) (u : URL) (lines : List String) :
    ∀ st : Loop, listBalance (geminiLoop env u st lines).w.calls + flagValue st.list =
      listBalance st.w.calls + flagValue (geminiLoop env u st lines).list := by
  induction lines with
  | nil => intro st; rfl
  | cons line rest ih =>
    intro st
    have h1 := geminiLine_balance env u st line
    simp only [geminiLoop]
    split
    · exact h1
    · have h2 := ih (geminiLine env u st line)
      omega

theorem listBalance_eq_count (l : List String) :
    listBalance l = (l.count "<ul>" : Int) - (l.count "</ul>\n" + l.count "</ul>") := by
  induction l with
  | nil => simp [listBalance]
  | cons a t ih =>
    have hcons : listBalance (a :: t) = listBalance1 a + listBalance t := by
      simp [listBalance]
    rw [hcons, ih]
    by_cases h1 : a = "<ul>"
    · subst h1
      have e1 : listBalance1 "<ul>" = 1 := by decide
      have n1 : ("<ul>" == "</ul>\n") = false := by decide
      have n2 : ("<ul>" == "</ul>") = false := by decide
      simp only [e1, List.count_cons, beq_self_eq_true, n1, n2, if_true]
      simp
      omega
    · by_cases h2 : a = "</ul>\n"
      · subst h2
        have e1 : listBalance1 "</ul>\n" = -1 := by decide
        have n1 : ("</ul>\n" == "<ul>") = false := by decide
        have n2 : ("</ul>\n" == "</ul>") = false := by decide
        simp only [e1, List.count_cons, beq_self_eq_true, n1, n2, if_true]
        simp
        omega
      · by_cases h3 : a = "</ul>"
        · subst h3
          have e1 : listBalance1 "</ul>" = -1 := by decide
          have n1 : ("</ul>" == "<ul>") = false := by decide
          have n2 : ("</ul>" == "</ul>\n") = false := by decide
          simp only [e1, List.count_cons, beq_self_eq_true, n1, n2, if_true]
          simp
          omega
        · have e1 : listBalance1 a = 0 := by simp [listBalance1, h1, h2, h3]
          simp only [e1, List.count_cons, beq_iff_eq, h1, h2, h3, if_false]
          simp

/-- The balance of list opens and closes after `n` lines. -/
theorem geminiLoop_line_balance (env : Env) (w : Writer) (u : URL) (rd : String) (n : Nat) :
    (loopCalls env u (loopStart env w u) ((readLines rd).take n)).count "<ul>" =
      (loopCalls env u (loopStart env w u) ((readLines rd).take n)).count "</ul>\n" +
      (loopCalls env u (loopStart env w u) ((readLines rd).take n)).count "</ul>" +
      (if (geminiLoop env u (loopStart env w u) ((readLines rd).take n)).list = true
        then 1 else 0) := by
  have hb := geminiLoop_balance env u ((readLines rd).take n) (loopStart env w u)
  obtain ⟨t, ht⟩ := geminiLoop_extends env u ((readLines rd).take n) (loopStart env w u)
  have hcalls : loopCalls env u (loopStart env w u) ((readLines rd).take n) = t := by
    unfold loopCalls
    rw [← ht]
    simp
  rw [← ht, listBalance_append] at hb
  rw [hcalls]
  have hc := listBalance_eq_count t
  have hs : flagValue (loopStart env w u).list = 0 := rfl
  rw [hs] at hb
  cases hl : (geminiLoop env u (loopStart env w u) ((readLines rd).take n)).list <;>
    simp only [hl, flagValue, if_true, if_false, Bool.false_eq_true] at hb ⊢ <;> omega

/-! ### The lines of a body -/

theorem ReadString_rest_length (cs : List Char) (h : (ReadString cs).2.2 = true) :
    (ReadString cs).2.1.length < cs.length := by
  induction cs with
  | nil => simp [ReadString] at h
  | cons c cs ih =>
    by_cases hc : c = '\n'
    · simp [ReadString, hc]
    · simp only [ReadString, hc, if_false] at h ⊢
      have := ih h
      simp only [List.length_cons]
      omega

theorem readLoop_eq (fuel : Nat) : ∀ cs : List Char, cs.length < fuel →
    readLoop fuel cs = some (readLinesAux cs) := by
  induction fuel with
  | zero => intro cs h; omega
  | succ fuel ih =>
    intro cs h
    rw [readLoop, readLinesAux_eq cs]
    by_cases hf : (ReadString cs).2.2 = true
    · have hlt := ReadString_rest_length cs hf
      simp only [hf, if_true]
      rw [ih _ (by omega)]
      rfl
    · simp only [hf, if_false]
      simp

theorem readLinesAux_length (cs : List Char) :
    (readLinesAux cs).length = cs.count '\n' + 1 := by
  induction cs with
  | nil => rfl
  | cons c cs ih =>
    by_cases hc : c = '\n'
    · subst hc
      simp [readLinesAux, ih]
    · have hne : ¬ (c == '\n') = true := by simpa using hc
      simp only [readLinesAux, hc, if_false, List.count_cons, hne]
      cases hr : readLinesAux cs with
      | nil => exact absurd hr (readLinesAux_ne_nil cs)
      | cons l ls => rw [hr] at ih; simpa using ih

theorem readLinesAux_flatten (cs : List Char) : (readLinesAux cs).flatten = cs := by
  induction cs with
  | nil => rfl
  | cons c cs ih =>
    by_cases hc : c = '\n'
    · simp [readLinesAux, hc, ih]
    · simp only [readLinesAux, hc, if_false]
      cases hr : readLinesAux cs with
      | nil => exact absurd hr (readLinesAux_ne_nil cs)
      | cons l ls => rw [hr] at ih; simpa using ih

theorem readLinesAux_lines (cs : List Char) :
    (∀ l ∈ (readLinesAux cs).dropLast, ∃ t, l = t ++ ['\n'] ∧ '\n' ∉ t) ∧
    '\n' ∉ (readLinesAux cs).getLastD [] := by
  induction cs with
  | nil => simp [readLinesAux]
  | cons c cs ih =>
    obtain ⟨ih1, ih2⟩ := ih
    by_cases hc : c = '\n'
    · subst hc
      cases hr : readLinesAux cs with
      | nil => exact absurd hr (readLinesAux_ne_nil cs)
      | cons l ls =>
        rw [hr] at ih1 ih2
        simp only [readLinesAux, if_true, hr, List.dropLast_cons₂, List.getLastD_cons] at ih2 ⊢
        refine ⟨?_, ih2⟩
        intro x hx
        rcases List.mem_cons.mp hx with e | e
        · exact ⟨[], by simp [e], by simp⟩
        · exact ih1 x e
    · cases hr : readLinesAux cs with
      | nil => exact absurd hr (readLinesAux_ne_nil cs)
      | cons l ls =>
        rw [hr] at ih1 ih2
        simp only [readLinesAux, hc, if_false, hr]
        cases ls with
        | nil =>
          simp only [List.dropLast_single, List.not_mem_nil, false_implies, implies_true,
            true_and]
          simp only [List.getLastD_cons, List.getLastD_nil] at ih2 ⊢
          intro hm
          rcases List.mem_cons.mp hm with e | e
          · exact hc e.symm
          · exact ih2 e
        | cons l2 ls =>
          simp only [List.dropLast_cons₂, List.getLastD_cons] at ih1 ih2 ⊢
          refine ⟨?_, ih2⟩
          intro x hx
          rcases List.mem_cons.mp hx with e | e
          · obtain ⟨t, ht1, ht2⟩ := ih1 l (by simp)
            refine ⟨c :: t, by simp [e, ht1], ?_⟩
            intro hm
            rcases List.mem_cons.mp hm with e2 | e2
            · exact hc e2.symm
            · exact ht2 e2
          · exact ih1 x (List.mem_cons_of_mem _ e)

theorem geminiLoop_eq_foldl (env : Env) (u : URL) (lines : List String) :
    ∀ st : Loop, (geminiLoop env u st lines).fault = none →
      geminiLoop env u st lines = lines.foldl (geminiLine env u) st := by
  induction lines with
  | nil => intro st _; rfl
  | cons l rest ih =>
    intro st h
    simp only [geminiLoop, List.foldl_cons] at h ⊢
    split at h
    · rename_i m hm; rw [hm] at h; exact absurd h (by simp)
    · exact ih _ h

theorem map_dropLast' {α β : Type} (f : α → β) :
    ∀ l : List α, (l.map f).dropLast = l.dropLast.map f := by
  intro l
  induction l with
  | nil => rfl
  | cons a t ih =>
    cases t with
    | nil => rfl
    | cons b t => simp at ih ⊢

theorem map_getLastD' {α β : Type} (f : α → β) :
    ∀ (l : List α) (d : α), (l.map f).getLastD (f d) = f (l.getLastD d) := by
  intro l
  induction l with
  | nil => intro d; rfl
  | cons a t ih =>
    intro d
    rw [List.map_cons, List.getLastD_cons, List.getLastD_cons]
    exact ih a

theorem readLines_data (rd : String) : (readLines rd).map String.data = readLinesAux rd.data := by
  simp [readLines, List.map_map, Function.comp_def]

/-- The empty body is read as one empty line. -/
theorem readLines_empty : readLines "" = [""] := rfl

/-! ### The balance of list markers at every write -/

theorem listBalance_of_no_marker (l : List String) (h : l.filter isListMarker = []) :
    listBalance l = 0 := by
  induction l with
  | nil => rfl
  | cons a t ih =>
    have ha : isListMarker a = false := by
      by_contra hc
      simp only [Bool.not_eq_false] at hc
      simp [List.filter_cons, hc] at h
    have ht : t.filter isListMarker = [] := by simpa [List.filter_cons, ha] using h
    simp only [listBalance, List.map_cons, List.sum_cons] at ih ⊢
    rw [listBalance1_of_not_marker a ha, ih ht]
    rfl

theorem filter_take_nil {α : Type} (p : α → Bool) (l : List α) (m : Nat)
    (h : l.filter p = []) : (l.take m).filter p = [] := by
  rw [List.filter_eq_nil_iff] at h ⊢
  intro a ha
  exact h a (List.mem_of_mem_take ha)

theorem listBalance_take_of_single (l : List String) :
    (l.filter isListMarker).length ≤ 1 →
      ∀ m, listBalance (l.take m) = 0 ∨ listBalance (l.take m) = listBalance l := by
  induction l with
  | nil => intro _ m; left; simp [listBalance]
  | cons a t ih =>
    intro h m
    cases m with
    | zero => left; rfl
    | succ m =>
      have hcons : ∀ x : List String, listBalance (a :: x) = listBalance1 a + listBalance x := by
        intro x; simp [listBalance]
      rw [List.take_succ_cons, hcons, hcons]
      cases ha : isListMarker a with
      | true =>
        have ht : t.filter isListMarker = [] := by
          simp only [List.filter_cons, ha, if_true, List.length_cons] at h
          exact List.length_eq_zero.mp (by omega)
        rw [listBalance_of_no_marker _ (filter_take_nil _ _ m ht), listBalance_of_no_marker _ ht]
        right; rfl
      | false =>
        have ht : (t.filter isListMarker).length ≤ 1 := by
          simpa [List.filter_cons, ha] using h
        rw [listBalance1_of_not_marker a ha]
        rcases ih ht m with e | e
        · left; omega
        · right; omega

theorem listMarkers_write (w : Writer) (s : String) :
    (w.WriteString s).1.calls.filter isListMarker =
      w.calls.filter isListMarker ++ (if isListMarker s then [s] else []) := by
  cases h : isListMarker s <;> simp [Writer.WriteString, List.filter_append, h]

theorem listMarkers_write_length (w : Writer) (s : String) :
    ((w.WriteString s).1.calls.filter isListMarker).length =
      (w.calls.filter isListMarker).length + (if isListMarker s = true then 1 else 0) := by
  rw [listMarkers_write]
  cases h : isListMarker s <;> simp

theorem closeList_markers_length (st : Loop) (m : String) :
    ((closeList st m).w.calls.filter isListMarker).length ≤
      (st.w.calls.filter isListMarker).length + 1 := by
  unfold closeList
  split
  · rw [listMarkers_write_length]
    split <;> omega
  · omega

theorem linkLine_markers_length (env : Env) (u : URL) (st : Loop) (line target label : String) :
    ((linkLine env u st line target label).w.calls.filter isListMarker).length ≤
      (st.w.calls.filter isListMarker).length + 1 := by
  have hc := closeList_markers_length st "</ul>\n"
  unfold linkLine
  simp only []
  repeat' split
  all_goals simp only [listMarkers_write_length, isListMarker_para, isListMarker_gateway,
    isListMarker_direct, Bool.false_eq_true, if_false, add_zero]
  all_goals exact hc

theorem geminiLine_markers_length (env : Env) (u : URL) (st : Loop) (line : String) :
    ((geminiLine env u st line).w.calls.filter isListMarker).length ≤
      (st.w.calls.filter isListMarker).length + 1 := by
  have hc := closeList_markers_length st "</ul>\n"
  have hc2 := closeList_markers_length st "</ul>"
  have b8 : isListMarker "<pre>\n" = false := by decide
  have b9 : isListMarker "</pre>\n" = false := by decide
  have b10 : isListMarker "<br>\n" = false := by decide
  have b11 : isListMarker "<ul>" = true := by decide
  unfold geminiLine
  repeat' split
  all_goals first
    | exact linkLine_markers_length _ _ _ _ _ _
    | (simp only [listMarkers_write_length, isListMarker_h1, isListMarker_h2, isListMarker_h3,
         isListMarker_li, isListMarker_quote, isListMarker_plain, isListMarker_escaped, b8, b9,
         b10, b11, Bool.false_eq_true, if_false, if_true, add_zero]
       try first
         | exact hc
         | exact hc2
         | omega)

theorem flagValue_range (b : Bool) : 0 ≤ flagValue b ∧ flagValue b ≤ 1 := by
  cases b <;> simp [flagValue]

theorem geminiLine_take_balance (env : Env) (u : URL) (st : Loop) (line : String) (m : Nat) :
    0 ≤ flagValue st.list +
        listBalance (((geminiLine env u st line).w.calls.drop st.w.calls.length).take m) ∧
    flagValue st.list +
        listBalance (((geminiLine env u st line).w.calls.drop st.w.calls.length).take m) ≤ 1 := by
  obtain ⟨t, ht⟩ := geminiLine_extends env u st line
  have hb := geminiLine_balance env u st line
  have hl := geminiLine_markers_length env u st line
  rw [← ht] at hb hl ⊢
  rw [listBalance_append] at hb
  rw [List.filter_append, List.length_append] at hl
  have hdrop : (st.w.calls ++ t).drop st.w.calls.length = t := by simp
  rw [hdrop]
  have h1 := flagValue_range st.list
  have h2 := flagValue_range (geminiLine env u st line).list
  rcases listBalance_take_of_single t (by omega) m with e | e <;> rw [e] <;> omega

theorem loopCalls_nil (env : Env) (u : URL) (st : Loop) : loopCalls env u st [] = [] := by
  simp [loopCalls, geminiLoop]

theorem geminiLoop_take_balance (env : Env) (u : URL) (lines : List String) :
    ∀ (st : Loop) (m : Nat),
      0 ≤ flagValue st.list + listBalance ((loopCalls env u st lines).take m) ∧
      flagValue st.list + listBalance ((loopCalls env u st lines).take m) ≤ 1 := by
  induction lines with
  | nil =>
    intro st m
    have h1 := flagValue_range st.list
    rw [loopCalls_nil]
    simp [listBalance]
    exact h1
  | cons line rest ih =>
    intro st m
    have hline := geminiLine_take_balance env u st line
    cases hfault : (geminiLine env u st line).fault with
    | some x =>
      have : loopCalls env u st (line :: rest) =
          (geminiLine env u st line).w.calls.drop st.w.calls.length := by
        simp [loopCalls, geminiLoop, hfault]
      rw [this]
      exact hline m
    | none =>
      obtain ⟨t, ht⟩ := geminiLine_extends env u st line
      obtain ⟨t2, ht2⟩ := geminiLoop_extends env u rest (geminiLine env u st line)
      have hb := geminiLine_balance env u st line
      have e1 : loopCalls env u st (line :: rest) = t ++ t2 := by
        simp only [loopCalls, geminiLoop, hfault]
        rw [← ht2, ← ht]
        simp
      have e2 : loopCalls env u (geminiLine env u st line) rest = t2 := by
        simp only [loopCalls]
        rw [← ht2]
        simp
      have e3 : (geminiLine env u st line).w.calls.drop st.w.calls.length = t := by
        rw [← ht]; simp
      rw [e3] at hline
      rw [← ht, listBalance_append] at hb
      rw [e1, List.take_append_eq_append_take, listBalance_append]
      by_cases hm : m ≤ t.length
      · have h0 : m - t.length = 0 := by omega
        rw [h0]
        have := hline m
        simp only [List.take_zero]
        have hz : listBalance ([] : List String) = 0 := rfl
        rw [hz]
        omega
      · have hfull : t.take m = t := List.take_of_length_le (by omega)
        rw [hfull]
        have := ih (geminiLine env u st line) (m - t.length)
        rw [e2] at this
        omega

/-! ### The lines the loop body runs on -/

/-- The loop variables at the end of the loop are those reached by running the loop body on
the lines of `linesRun`, in order. -/
theorem geminiLoop_eq_foldl_linesRun (env : Env) (u : URL) (lines : List String) :
    ∀ st : Loop, geminiLoop env u st lines =
      (linesRun env u st lines).foldl (geminiLine env u) st := by
  induction lines with
  | nil => intro st; rfl
  | cons l rest ih =>
    intro st
    simp only [geminiLoop, linesRun]
    cases h : (geminiLine env u st l).fault with
    | some x => simp
    | none => simp only [List.foldl_cons]; exact ih _

/-- When the loop ends without a panic, the loop body ran on every line. -/
theorem linesRun_of_no_fault (env : Env) (u : URL) (lines : List String) :
    ∀ st : Loop, (geminiLoop env u st lines).fault = none → linesRun env u st lines = lines := by
  induction lines with
  | nil => intro st _; rfl
  | cons l rest ih =>
    intro st h
    simp only [geminiLoop, linesRun] at h ⊢
    cases hf : (geminiLine env u st l).fault with
    | some x => rw [hf] at h; simp only [] at h; rw [hf] at h; exact absurd h (by simp)
    | none => rw [hf] at h; simp only [] at h ⊢; rw [ih _ h]

/-! ### Runs that return -/

/-- For a body with `N` lines that match the fence pattern, on which `geminiToHTML`
returns, the block markers written by the line loop are `<pre>` and `</pre>` in alternation
starting with `<pre>`, one per fence line: for even `N` there are `N/2` opens and `N/2`
closes, for odd `N` there are `(N+1)/2` opens and `(N-1)/2` closes; nothing closes the last
block at the end of the stream, and the preformat flag is still set exactly when `N` is
odd. -/
theorem geminiToHTML_fence_markers_of_returned (env : Env) (w : Writer) (u : URL) (rd : String) (e : GoError)
    (hret : (geminiToHTML env w u rd).ret = .returned e) :
    (bodyCalls env w u rd).filter isFenceMarker =
      fenceMarkers false ((readLines rd).filter env.reGemPre).length ∧
    (bodyCalls env w u rd).count "<pre>\n" =
      (if ((readLines rd).filter env.reGemPre).length % 2 = 0
        then ((readLines rd).filter env.reGemPre).length / 2
        else (((readLines rd).filter env.reGemPre).length + 1) / 2) ∧
    (bodyCalls env w u rd).count "</pre>\n" =
      (if ((readLines rd).filter env.reGemPre).length % 2 = 0
        then ((readLines rd).filter env.reGemPre).length / 2
        else (((readLines rd).filter env.reGemPre).length - 1) / 2) ∧
    (geminiToHTML env w u rd).pre =
      decide (((readLines rd).filter env.reGemPre).length % 2 = 1) := by
  have hf := loopEnd_fault_of_returned env w u rd e hret
  have hm := geminiLoop_markers env u (readLines rd)
    { list := false, pre := false, w := headerWriter env w u, fault := none } hf
  have hc := loopEnd_calls env w u rd
  obtain ⟨h1, h2⟩ := hm
  have hfil : (bodyCalls env w u rd).filter isFenceMarker =
      fenceMarkers false ((readLines rd).filter env.reGemPre).length := by
    have h3 : markersOf (loopEnd env w u rd).w =
        markersOf (headerWriter env w u) ++ (bodyCalls env w u rd).filter isFenceMarker := by
      simp [markersOf, hc, List.filter_append]
    have h4 : markersOf (loopEnd env w u rd).w = markersOf (headerWriter env w u) ++
        fenceMarkers false ((readLines rd).filter env.reGemPre).length := h1
    rw [h3] at h4
    exact List.append_cancel_left h4
  have hcnt := fenceMarkers_count ((readLines rd).filter env.reGemPre).length false
  have ho : (bodyCalls env w u rd).count "<pre>\n" =
      ((bodyCalls env w u rd).filter isFenceMarker).count "<pre>\n" :=
    (List.count_filter (by decide)).symm
  have hcl : (bodyCalls env w u rd).count "</pre>\n" =
      ((bodyCalls env w u rd).filter isFenceMarker).count "</pre>\n" :=
    (List.count_filter (by decide)).symm
  have hpre : (geminiToHTML env w u rd).pre = (loopEnd env w u rd).pre := by
    unfold geminiToHTML
    simp only []
    split <;> rfl
  refine ⟨hfil, ?_, ?_, ?_⟩
  · rw [ho, hfil, hcnt.1]
    simp only [Bool.false_eq_true, if_false]
    split <;> omega
  · rw [hcl, hfil, hcnt.2]
    simp only [Bool.false_eq_true, if_false]
    split <;> omega
  · rw [hpre]
    have : (loopEnd env w u rd).pre =
        (false != decide (((readLines rd).filter env.reGemPre).length % 2 = 1)) := h2
    rw [this]
    simp

/-- A body with three fence lines gives two opens and one close. -/
theorem geminiToHTML_fence_markers_sample :
    (geminiToHTML sampleEnv okWriter sampleURL fencedBody).ret = .returned none ∧
    ((readLines fencedBody).filter sampleEnv.reGemPre).length = 3 ∧
    (bodyCalls sampleEnv okWriter sampleURL fencedBody).filter isFenceMarker =
      fenceMarkers false ((readLines fencedBody).filter sampleEnv.reGemPre).length ∧
    (bodyCalls sampleEnv okWriter sampleURL fencedBody).count "<pre>\n" =
      (if ((readLines fencedBody).filter sampleEnv.reGemPre).length % 2 = 0
        then ((readLines fencedBody).filter sampleEnv.reGemPre).length / 2
        else (((readLines fencedBody).filter sampleEnv.reGemPre).length + 1) / 2) ∧
    (bodyCalls sampleEnv okWriter sampleURL fencedBody).count "</pre>\n" =
      (if ((readLines fencedBody).filter sampleEnv.reGemPre).length % 2 = 0
        then ((readLines fencedBody).filter sampleEnv.reGemPre).length / 2
        else (((readLines fencedBody).filter sampleEnv.reGemPre).length - 1) / 2) ∧
    (geminiToHTML sampleEnv okWriter sampleURL fencedBody).pre =
      decide (((readLines fencedBody).filter sampleEnv.reGemPre).length % 2 = 1) :=
  ⟨by decide, by decide,
    geminiToHTML_fence_markers_of_returned sampleEnv okWriter sampleURL fencedBody none (by decide)⟩

/-- The line loop of `geminiToHTML` ends on every body: iterating `ReadString` stops
after `k + 1` reads, where `k` is the number of newline bytes of the body, and the lines read
are those of `readLines`. Every line but the last is a newline-terminated segment with no
other newline, the last is the remainder after the last newline and has no newline (it may
be empty), and the lines put together in order give back the body. Whenever `geminiToHTML`
returns, the loop body ran on each of these lines, once and in order. -/
theorem geminiToHTML_line_loop_of_returned (env : Env) (w : Writer) (u : URL) (rd : String) (e : GoError)
    (hret : (geminiToHTML env w u rd).ret = .returned e) :
    readLoop (rd.data.length + 1) rd.data = some ((readLines rd).map String.data) ∧
    (readLines rd).length = rd.data.count '\n' + 1 ∧
    ((readLines rd).map String.data).flatten = rd.data ∧
    (∀ l ∈ (readLines rd).dropLast, ∃ t : String, l = t ++ "\n" ∧ '\n' ∉ t.data) ∧
    '\n' ∉ ((readLines rd).getLastD "").data ∧
    loopEnd env w u rd = (readLines rd).foldl (geminiLine env u) (loopStart env w u) := by
  have hf := loopEnd_fault_of_returned env w u rd e hret
  obtain ⟨hl1, hl2⟩ := readLinesAux_lines rd.data
  refine ⟨?_, ?_, ?_, ?_, ?_, ?_⟩
  · rw [readLines_data]
    exact readLoop_eq _ _ (by omega)
  · simp [readLines, readLinesAux_length]
  · rw [readLines_data, readLinesAux_flatten]
  · intro l hl
    simp only [readLines, map_dropLast', List.mem_map] at hl
    obtain ⟨x, hx, rfl⟩ := hl
    obtain ⟨t, ht1, ht2⟩ := hl1 x hx
    refine ⟨⟨t⟩, ?_, ht2⟩
    apply String.ext
    simp [ht1]
  · have := map_getLastD' String.mk (readLinesAux rd.data) []
    simp only [readLines]
    have e0 : ("" : String) = String.mk [] := rfl
    rw [e0, this]
    exact hl2
  · rw [loopEnd_eq] at hf ⊢
    exact geminiLoop_eq_foldl env u _ _ hf

/-- The body `a`, newline, newline, `b` has two newlines and is read as the
three lines `a` with its newline, the lone newline, and `b`. -/
theorem geminiToHTML_line_loop_sample :
    (geminiToHTML sampleEnv okWriter sampleURL "a\n\nb").ret = .returned none ∧
    readLines "a\n\nb" = ["a\n", "\n", "b"] ∧
    (readLoop (("a\n\nb" : String).data.length + 1) ("a\n\nb" : String).data =
        some ((readLines "a\n\nb").map String.data) ∧
      (readLines "a\n\nb").length = ("a\n\nb" : String).data.count '\n' + 1 ∧
      ((readLines "a\n\nb").map String.data).flatten = ("a\n\nb" : String).data ∧
      (∀ l ∈ (readLines "a\n\nb").dropLast, ∃ t : String, l = t ++ "\n" ∧ '\n' ∉ t.data) ∧
      '\n' ∉ ((readLines "a\n\nb").getLastD "").data ∧
      loopEnd sampleEnv okWriter sampleURL "a\n\nb" =
        (readLines "a\n\nb").foldl (geminiLine sampleEnv sampleURL)
          (loopStart sampleEnv okWriter sampleURL)) :=
  ⟨by decide, by decide,
    geminiToHTML_line_loop_of_returned sampleEnv okWriter sampleURL "a\n\nb" none (by decide)⟩

/-! ### The claims -/

/-- C1 (evaluation at the failing input): the status line `10 Enter query` is accepted by the
sample status grammar and starts with the byte 1, and `proxyGemini` returns the request URL
with a nil error, having written nothing to the response writer: the input-required case is
dropped silently instead of being reported as an error. -/
theorem proxyGemini_input_required_returns_nil :
    sampleEnv.reStatus "10 Enter query\r\n" = true ∧
    (proxyGemini sampleEnv inputConn okWriter sampleURL).ret = .returned (sampleURL, none) ∧
    (proxyGemini sampleEnv inputConn okWriter sampleURL).w.calls = [] := by
  decide

/-- C2 (evaluation at the failing input): for the request URL
`gemini://example.org/search?q=a%20b` the URL text is used as a format string, so the bytes
written to the connection are `gemini://example.org/search?q=a%!b(MISSING)` and the line
terminator, not the URL text and the line terminator. -/
theorem proxyGemini_request_percent_mangled :
    sampleEnv.urlString queryURL ++ "\r\n" = "gemini://example.org/search?q=a%20b\r\n" ∧
    (proxyGemini sampleEnv inputConn okWriter queryURL).sent =
      ["gemini://example.org/search?q=a%!b(MISSING)\r\n"] ∧
    (proxyGemini sampleEnv inputConn okWriter queryURL).sent ≠
      [sampleEnv.urlString queryURL ++ "\r\n"] := by
  decide

/-- C3 (counterexample): a run that consists of the single list item `* a`, followed in turn
by a plain-text line, by a blank line, by a fence line, and by the end of the stream. In
each of the four bodies the transcoder opens the list once and writes no `</ul>` at all.
In the body `* a`, `plain`, `* b` the list is therefore still open when the second run
starts, and that run gets no `<ul>` of its own. -/
theorem geminiToHTML_list_left_open :
    bodyCalls sampleEnv okWriter sampleURL "* a\nplain" =
      ["<ul>", "<li>a</li>\n", "plain<br>\n"] ∧
    bodyCalls sampleEnv okWriter sampleURL "* a\nplain\n* b" =
      ["<ul>", "<li>a</li>\n", "plain\n<br>\n", "<li>b</li>\n"] ∧
    bodyCalls sampleEnv okWriter sampleURL "* a\n" =
      ["<ul>", "<li>a</li>\n", "<br>\n"] ∧
    bodyCalls sampleEnv okWriter sampleURL "* a\n\x60\x60\x60" =
      ["<ul>", "<li>a</li>\n", "<pre>\n"] ∧
    bodyCalls sampleEnv okWriter sampleURL "* a" =
      ["<ul>", "<li>a</li>\n"] ∧
    (geminiToHTML sampleEnv okWriter sampleURL "* a").ret = .returned none ∧
    (geminiToHTML sampleEnv okWriter sampleURL "* a").list = true := by
  decide

/-- C3 (amended): take a run of consecutive list-item lines that the loop starts to read
outside preformat with no list open (`st` is the state of the loop at that point). The loop
writes exactly `<ul>` followed by one list-item element per line of the run, and `<ul>` is
the only list marker among these writes; if the stream ends there, nothing more is written
by the loop and the list flag is still set. If the line after the run is a heading, link or
quote line, the next write is the close marker of that branch, and the list markers written
for the run and that line are exactly the one open and that one close; the list flag is
then off. -/
theorem geminiLoop_list_run (env : Env) (u : URL) (st : Loop) (run : List String)
    (next : String) (hpre : st.pre = false) (hlist : st.list = false)
    (hfault : st.fault = none) (hne : run ≠ [])
    (hitems : ∀ l ∈ run, IsItem env l = true) (hnext : IsCloser env next = true) :
    loopCalls env u st run = "<ul>" :: run.map (itemText env) ∧
    (loopCalls env u st run).filter isListMarker = ["<ul>"] ∧
    (geminiLoop env u st run).list = true ∧
    ("<ul>" :: run.map (itemText env)) ++ [closeMarker env next] <+:
      loopCalls env u st (run ++ [next]) ∧
    (loopCalls env u st (run ++ [next])).filter isListMarker = ["<ul>", closeMarker env next] ∧
    (geminiLoop env u st (run ++ [next])).list = false := by
  obtain ⟨l, rest, rfl⟩ := List.exists_cons_of_ne_nil hne
  obtain ⟨r1, r2, r3, r4⟩ := run_loop env u rest st l hpre hfault hitems
  simp only [hlist, if_true] at r1
  have hitemsF : ((l :: rest).map (itemText env)).filter isListMarker = [] := by
    rw [List.filter_eq_nil_iff]
    intro a ha
    obtain ⟨x, hx, rfl⟩ := List.mem_map.mp ha
    simp [isListMarker_itemText env x (hitems x hx)]
  have hu : isListMarker "<ul>" = true := by decide
  have hcalls : loopCalls env u st (l :: rest) = "<ul>" :: (l :: rest).map (itemText env) := by
    unfold loopCalls
    rw [r1]
    simp
  have happ := geminiLoop_append env u (l :: rest) [next] st r4
  rw [geminiLoop_single] at happ
  obtain ⟨⟨t, ht⟩, c2, c3⟩ := closer_step env u (geminiLoop env u st (l :: rest)) next r3 r2 hnext
  rw [← ht] at c2
  rw [r1] at ht c2
  have hcalls2 : loopCalls env u st (l :: rest ++ [next]) =
      ("<ul>" :: (l :: rest).map (itemText env)) ++ [closeMarker env next] ++ t := by
    unfold loopCalls
    rw [happ, ← ht]
    simp
  refine ⟨hcalls, ?_, r2, ?_, ?_, ?_⟩
  · rw [hcalls, List.filter_cons_of_pos hu, hitemsF]
  · rw [hcalls2]
    exact List.prefix_append _ _
  · have c2' : (closeMarker env next :: t).filter isListMarker = [closeMarker env next] := by
      simpa using c2
    rw [hcalls2, List.append_assoc, List.filter_append, List.filter_cons_of_pos hu, hitemsF]
    simpa using c2'
  · rw [happ]; exact c3

/-- C3 (witness): the run `* a`, `* b` at the start of a document, followed by the heading
`# T`. -/
theorem geminiLoop_list_run_witness :
    loopCalls sampleEnv sampleURL startLoop ["* a\n", "* b\n"] =
      "<ul>" :: ["* a\n", "* b\n"].map (itemText sampleEnv) ∧
    (loopCalls sampleEnv sampleURL startLoop ["* a\n", "* b\n"]).filter isListMarker = ["<ul>"] ∧
    (geminiLoop sampleEnv sampleURL startLoop ["* a\n", "* b\n"]).list = true ∧
    ("<ul>" :: ["* a\n", "* b\n"].map (itemText sampleEnv)) ++ [closeMarker sampleEnv "# T\n"] <+:
      loopCalls sampleEnv sampleURL startLoop (["* a\n", "* b\n"] ++ ["# T\n"]) ∧
    (loopCalls sampleEnv sampleURL startLoop (["* a\n", "* b\n"] ++ ["# T\n"])).filter
      isListMarker = ["<ul>", closeMarker sampleEnv "# T\n"] ∧
    (geminiLoop sampleEnv sampleURL startLoop (["* a\n", "* b\n"] ++ ["# T\n"])).list = false :=
  geminiLoop_list_run sampleEnv sampleURL startLoop ["* a\n", "* b\n"] "# T\n"
    (by decide) (by decide) (by decide) (by decide) (by decide) (by decide)

/-- C4 (evaluation at the failing input): on the body `=> :bad oops`, `after` the target
`:bad` does not resolve. With a resolver that returns a nil URL with its error, the
transcoder writes the unlinked paragraph and then panics on the nil URL: the line `after`
is never transcoded and no footer is written. With a resolver that returns a URL with its
error, the unlinked paragraph is followed by an anchor paragraph for the same line. -/
theorem geminiToHTML_unresolved_link_faults :
    bodyCalls sampleEnv okWriter sampleURL "=> :bad oops\nafter\n" =
      ["<p>=> :bad oops\n</p>\n"] ∧
    (geminiToHTML sampleEnv okWriter sampleURL "=> :bad oops\nafter\n").ret =
      .panicked "invalid memory address or nil pointer dereference" ∧
    (bodyCalls lenientEnv okWriter sampleURL "=> :bad oops\nafter\n").take 2 =
      ["<p>=> :bad oops\n</p>\n",
       "<p><a href=\"/?url=gemini%3A%2F%2Fexample.org%2Fa%2F\">oops</a> " ++
       "<span class=\"scheme\"><a href=\"gemini://example.org/a/\">[gemini]</a></span></p>\n"] := by
  decide

/-- C5 (counterexample): on the body `hi` with a writer whose second write fails, the write
of the transcoded line `hi` is that second write and it fails with `write: broken pipe`,
yet `geminiToHTML` returns a nil error. -/
theorem geminiToHTML_body_write_failure_ignored :
    (geminiToHTML sampleEnv flakyWriter sampleURL "hi\n").w.calls.get? 1 = some "hi\n<br>\n" ∧
    flakyWriter.failAt 1 = some "write: broken pipe" ∧
    (geminiToHTML sampleEnv flakyWriter sampleURL "hi\n").ret = .returned none := by
  decide

/-- C5 (amended): with the response writer as a fallible writer, `geminiToHTML` discards
the result of every write of the line loop. Whenever it returns, the error `e` it returns
is the result of executing the footer template: the failure of the footer write when that
write fails, the error of the template itself otherwise (nil when the template executes).
The writes made are those of the header, those of the line loop, the footer text, and the
`Internal Server Error` notice when `e` is not nil. -/
theorem geminiToHTML_returns_footer_result (env : Env) (w : Writer) (u : URL) (rd : String)
    (e : GoError) (hret : (geminiToHTML env w u rd).ret = .returned e) :
    e = (match w.failAt ((headerWriter env w u).calls ++ bodyCalls env w u rd).length with
         | some x => some x
         | none => (env.tmpls "footer-only.html.tmpl" (pageData env u)).2) ∧
    (geminiToHTML env w u rd).w.calls =
      (headerWriter env w u).calls ++ bodyCalls env w u rd ++
      [(env.tmpls "footer-only.html.tmpl" (pageData env u)).1] ++
      (if e.isSome then ["Internal Server Error\n"] else []) := by
  have hf := loopEnd_fault_of_returned env w u rd e hret
  have hc := loopEnd_calls env w u rd
  have hfa : (loopEnd env w u rd).w.failAt = w.failAt := by
    unfold loopEnd
    rw [geminiLoop_failAt, headerWriter_failAt]
  unfold geminiToHTML at hret ⊢
  simp only [hf] at hret ⊢
  simp only [ExecuteTemplate, Writer.WriteString, hfa, hc, Outcome.returned.injEq] at hret ⊢
  subst hret
  refine ⟨rfl, ?_⟩
  split <;> simp_all [httpError, Writer.WriteString]

/-- C5 (witness): the body `hi` on a writer that breaks after the header; the call returns
the failure of the footer write. -/
theorem geminiToHTML_returns_footer_result_witness :
    (geminiToHTML sampleEnv brokenWriter sampleURL "hi\n").ret =
      .returned (some "write: broken pipe") ∧
    some "write: broken pipe" =
      (match brokenWriter.failAt ((headerWriter sampleEnv brokenWriter sampleURL).calls ++
          bodyCalls sampleEnv brokenWriter sampleURL "hi\n").length with
       | some x => some x
       | none => (sampleEnv.tmpls "footer-only.html.tmpl" (pageData sampleEnv sampleURL)).2) ∧
    (geminiToHTML sampleEnv brokenWriter sampleURL "hi\n").w.calls =
      (headerWriter sampleEnv brokenWriter sampleURL).calls ++
      bodyCalls sampleEnv brokenWriter sampleURL "hi\n" ++
      [(sampleEnv.tmpls "footer-only.html.tmpl" (pageData sampleEnv sampleURL)).1] ++
      (if (some "write: broken pipe" : GoError).isSome then ["Internal Server Error\n"]
        else []) :=
  ⟨by decide, geminiToHTML_returns_footer_result sampleEnv brokenWriter sampleURL "hi\n"
    (some "write: broken pipe") (by decide)⟩

/-- C6 (evaluation at the failing input): the status line `20 text/gemini` is well formed,
of class 2 and declares text/gemini; with a writer that breaks after the header,
`geminiToHTML` on the rest of the stream returns the error `write: broken pipe`, and
`proxyGemini`, which called it once on that stream, returns a nil error. -/
theorem proxyGemini_discards_transcoder_error :
    (geminiToHTML sampleEnv brokenWriter sampleURL "hi\n").ret =
      .returned (some "write: broken pipe") ∧
    (proxyGemini sampleEnv pageConn brokenWriter sampleURL).transcoded = [(sampleURL, "hi\n")] ∧
    (proxyGemini sampleEnv pageConn brokenWriter sampleURL).ret = .returned (sampleURL, none) := by
  decide

/-- C7 (evaluation at the failing input): the body `=> :bad`, fence line, has one line that
matches the fence pattern, so one `<pre>` is due. The link line comes first, its target does
not resolve, and the link branch panics on the nil URL after writing the unlinked
paragraph: the fence line is never read, no `<pre>` is written, and the call does not
return. -/
theorem geminiToHTML_fence_lost_after_fault :
    ((readLines faultBody).filter sampleEnv.reGemPre).length = 1 ∧
    bodyCalls sampleEnv okWriter sampleURL faultBody = ["<p>=> :bad\n</p>\n"] ∧
    (bodyCalls sampleEnv okWriter sampleURL faultBody).count "<pre>\n" = 0 ∧
    (geminiToHTML sampleEnv okWriter sampleURL faultBody).ret =
      .panicked "invalid memory address or nil pointer dereference" := by
  decide

/-- C8: for a request URL `u` with a scheme and a host, and a class-3 status line that the
status pattern accepts and whose remainder after the separator parses as the URL `ru`,
`proxyGemini` returns a URL whose host and scheme are not empty: each is the one of `ru`
when `ru` has it and the one of `u` otherwise; path, raw path, query and fragment are those
of `ru`. -/
theorem proxyGemini_redirect_inherits (env : Env) (conn : Conn) (w : Writer) (u : URL)
    (status rd target : String) (ru : URL)
    (hs : conn.Serves status rd) (hm : env.reStatus status = true)
    (h3 : status.data.head? = some '3')
    (ht : SplitAfterN1 status = some target)
    (hp : env.urlParse (TrimSpace target) = .ok ru)
    (hscheme : u.Scheme ≠ "") (hhost : u.Host ≠ "") :
    ∃ r e, (proxyGemini env conn w u).ret = .returned (r, e) ∧
      r.Host ≠ "" ∧ r.Scheme ≠ "" ∧
      r.Host = (if ru.Host = "" then u.Host else ru.Host) ∧
      r.Scheme = (if ru.Scheme = "" then u.Scheme else ru.Scheme) ∧
      r.Path = ru.Path ∧ r.RawPath = ru.RawPath ∧ r.RawQuery = ru.RawQuery ∧
      r.Fragment = ru.Fragment := by
  obtain ⟨hd, hr⟩ := hs
  refine ⟨redirectTarget u ru, some (env.urlString u), ?_, ?_⟩
  · simp [proxyGemini, hd, hr, hm, h3, ht, hp, redirectTarget]
  · by_cases hH : ru.Host = "" <;> by_cases hS : ru.Scheme = "" <;>
      simp [redirectTarget, hH, hS, hscheme, hhost]

/-- C8 (witness): the sample server answers `30 /new?x=1` to a request for
`gemini://example.org/a/`. -/
theorem proxyGemini_redirect_inherits_witness :
    ∃ r e, (proxyGemini sampleEnv redirectConn okWriter sampleURL).ret = .returned (r, e) ∧
      r.Host ≠ "" ∧ r.Scheme ≠ "" ∧
      r.Host = (if relativeTarget.Host = "" then sampleURL.Host else relativeTarget.Host) ∧
      r.Scheme = (if relativeTarget.Scheme = "" then sampleURL.Scheme
        else relativeTarget.Scheme) ∧
      r.Path = relativeTarget.Path ∧ r.RawPath = relativeTarget.RawPath ∧
      r.RawQuery = relativeTarget.RawQuery ∧ r.Fragment = relativeTarget.Fragment :=
  proxyGemini_redirect_inherits sampleEnv redirectConn okWriter sampleURL "30 /new?x=1\r\n" ""
    "/new?x=1\r\n" relativeTarget ⟨rfl, by decide⟩ (by decide) (by decide) (by decide)
    rfl (by decide) (by decide)

/-- C9: for a class-3 status line that the status pattern accepts and whose remainder after
the separator parses as the URL `ru`, `proxyGemini` returns the redirect target (`ru` with
host and scheme inherited from `u` where missing) together with a non-nil error whose text
is `u.String()`; the same text is stored in `errRedirect`; nothing is written to the
response writer and the transcoder is not called. -/
theorem proxyGemini_redirect_outcome (env : Env) (conn : Conn) (w : Writer) (u : URL)
    (status rd target : String) (ru : URL)
    (hs : conn.Serves status rd) (hm : env.reStatus status = true)
    (h3 : status.data.head? = some '3')
    (ht : SplitAfterN1 status = some target)
    (hp : env.urlParse (TrimSpace target) = .ok ru) :
    (proxyGemini env conn w u).ret = .returned (redirectTarget u ru, some (env.urlString u)) ∧
    (proxyGemini env conn w u).errRedirect = some (env.urlString u) ∧
    (proxyGemini env conn w u).w = w ∧
    (proxyGemini env conn w u).transcoded = [] := by
  obtain ⟨hd, hr⟩ := hs
  simp [proxyGemini, hd, hr, hm, h3, ht, hp, redirectTarget]

/-- C9 (witness): the sample server answers `30 /new?x=1` to a request for
`gemini://example.org/a/`. -/
theorem proxyGemini_redirect_outcome_witness :
    (proxyGemini sampleEnv redirectConn okWriter sampleURL).ret =
      .returned (redirectTarget sampleURL relativeTarget, some (sampleEnv.urlString sampleURL)) ∧
    (proxyGemini sampleEnv redirectConn okWriter sampleURL).errRedirect =
      some (sampleEnv.urlString sampleURL) ∧
    (proxyGemini sampleEnv redirectConn okWriter sampleURL).w = okWriter ∧
    (proxyGemini sampleEnv redirectConn okWriter sampleURL).transcoded = [] :=
  proxyGemini_redirect_outcome sampleEnv redirectConn okWriter sampleURL "30 /new?x=1\r\n" ""
    "/new?x=1\r\n" relativeTarget ⟨rfl, by decide⟩ (by decide) (by decide) (by decide)
    rfl

/-- C10: for a status line that the status pattern rejects, `proxyGemini` returns the
request URL `u` and a non-nil error whose text is `proxyGemini: invalid status line: `
followed by the raw status line; nothing is written to the response writer and the
transcoder is not called. -/
theorem proxyGemini_malformed_status (env : Env) (conn : Conn) (w : Writer) (u : URL)
    (status rd : String) (hs : conn.Serves status rd) (hm : env.reStatus status = false) :
    (proxyGemini env conn w u).ret =
      .returned (u, some ("proxyGemini: invalid status line: " ++ status)) ∧
    (proxyGemini env conn w u).w = w ∧
    (proxyGemini env conn w u).transcoded = [] := by
  obtain ⟨hd, hr⟩ := hs
  simp [proxyGemini, hd, hr, hm]

/-- C10 (witness): the sample server sends an empty first line, which the sample status
grammar rejects. -/
theorem proxyGemini_malformed_status_witness :
    (proxyGemini sampleEnv emptyLineConn okWriter sampleURL).ret =
      .returned (sampleURL, some ("proxyGemini: invalid status line: " ++ "\n")) ∧
    (proxyGemini sampleEnv emptyLineConn okWriter sampleURL).w = okWriter ∧
    (proxyGemini sampleEnv emptyLineConn okWriter sampleURL).transcoded = [] :=
  proxyGemini_malformed_status sampleEnv emptyLineConn okWriter sampleURL "\n" "rest"
    ⟨rfl, by decide⟩ (by decide)

/-- C11 (counterexample): the status lines `20 text/gemini-draft` and
`20 text/plain; x=text/gemini` declare the MIME types `text/gemini-draft` and `text/plain`,
neither of which is `text/gemini`; both contain the text `text/gemini`, and for both
`proxyGemini` calls the transcoder on the body and writes its output. -/
theorem proxyGemini_substring_mime :
    declaredMIME "20 text/gemini-draft\r\n" = "text/gemini-draft" ∧
    declaredMIME "20 text/gemini-draft\r\n" ≠ "text/gemini" ∧
    (proxyGemini sampleEnv draftConn okWriter sampleURL).transcoded = [(sampleURL, "hi\n")] ∧
    (proxyGemini sampleEnv draftConn okWriter sampleURL).w.calls.get? 1 = some "hi\n<br>\n" ∧
    declaredMIME "20 text/plain; x=text/gemini\r\n" = "text/plain" ∧
    (proxyGemini sampleEnv paramConn okWriter sampleURL).transcoded = [(sampleURL, "hi\n")] ∧
    (proxyGemini sampleEnv paramConn okWriter sampleURL).w.calls.get? 1 = some "hi\n<br>\n" := by
  decide

/-- C11 (amended): for a class-2 status line that the status pattern accepts and that does not contain
`text/gemini`, `proxyGemini` does not call the transcoder, writes nothing to the response
writer, and returns the request URL `u` with a nil error. -/
theorem proxyGemini_other_mime (env : Env) (conn : Conn) (w : Writer) (u : URL)
    (status rd : String) (hs : conn.Serves status rd) (hm : env.reStatus status = true)
    (h2 : status.data.head? = some '2') (hmime : Contains status "text/gemini" = false) :
    (proxyGemini env conn w u).ret = .returned (u, none) ∧
    (proxyGemini env conn w u).w = w ∧
    (proxyGemini env conn w u).transcoded = [] := by
  obtain ⟨hd, hr⟩ := hs
  simp [proxyGemini, hd, hr, hm, h2, hmime]

/-- C11 (witness): the sample server answers `20 text/plain`. -/
theorem proxyGemini_other_mime_witness :
    (proxyGemini sampleEnv plainConn okWriter sampleURL).ret = .returned (sampleURL, none) ∧
    (proxyGemini sampleEnv plainConn okWriter sampleURL).w = okWriter ∧
    (proxyGemini sampleEnv plainConn okWriter sampleURL).transcoded = [] :=
  proxyGemini_other_mime sampleEnv plainConn okWriter sampleURL "20 text/plain\r\n" "hello\n"
    ⟨rfl, by decide⟩ (by decide) (by decide) (by decide)

/-- C12: a line read while the preformat flag is set and that does not match the fence
pattern is written with every `<` replaced by `&lt;` and nothing else changed; that is the
only write, both flags stay as they were, and none of the other patterns is consulted: the
result is the same whatever the blank, heading, link, list and quote patterns say about
the line. -/
theorem geminiLine_preformatted (env : Env) (u : URL) (st : Loop) (line : String)
    (hpre : st.pre = true) (hfence : env.reGemPre line = false) :
    (geminiLine env u st line).w.calls = st.w.calls ++ [escapeLt line] ∧
    (geminiLine env u st line).pre = true ∧
    (geminiLine env u st line).list = st.list ∧
    (geminiLine env u st line).fault = st.fault := by
  simp [geminiLine, hpre, hfence, Writer.WriteString, ReplaceAll_lt]

/-- C12 (witness): inside a preformatted block the line `# <b>`, which the sample heading
pattern matches, is written as `# &lt;b>`. -/
theorem geminiLine_preformatted_witness :
    sampleEnv.reGemH1 "# <b>\n" = some "<b>" ∧
    escapeLt "# <b>\n" = "# &lt;b>\n" ∧
    (geminiLine sampleEnv sampleURL preLoop "# <b>\n").w.calls =
      preLoop.w.calls ++ [escapeLt "# <b>\n"] ∧
    (geminiLine sampleEnv sampleURL preLoop "# <b>\n").pre = true ∧
    (geminiLine sampleEnv sampleURL preLoop "# <b>\n").list = preLoop.list ∧
    (geminiLine sampleEnv sampleURL preLoop "# <b>\n").fault = preLoop.fault :=
  ⟨by decide, by decide,
    geminiLine_preformatted sampleEnv sampleURL preLoop "# <b>\n" (by decide) (by decide)⟩

/-- C13: a line read outside preformat and classified as a link line, whose target resolves
without error to the URL `a` of scheme `gemini`, is written as exactly one paragraph: the
gateway anchor `/?url=` with the query-escaped text of `a`, labelled with the label of the
link (with the text of `a` when the label is empty), and the badge anchor to the text of
`a` itself marked `[gemini]`. The only other write is the close marker of a list that was
open; afterwards no list is open. -/
theorem geminiLine_gemini_link (env : Env) (u : URL) (st : Loop) (line target label : String)
    (a : URL) (hpre : st.pre = false) (hc : classify env line = .LinkLine)
    (hl : env.reGemLink line = some (target, label))
    (hr : env.absoluteURL u target = (some a, none)) (hs : a.Scheme = "gemini") :
    (geminiLine env u st line).w.calls =
      st.w.calls ++ (if st.list = true then ["</ul>\n"] else []) ++
        [gatewayParagraph env (env.urlString a) label] ∧
    (geminiLine env u st line).list = false ∧
    (geminiLine env u st line).pre = false ∧
    (geminiLine env u st line).fault = st.fault := by
  obtain ⟨h1, h2, h3, h4, h5⟩ := classify_link env line hc
  have e : geminiLine env u st line = linkLine env u st line target label := by
    simp [geminiLine, h1, h2, h3, h4, h5, hl, hpre]
  rw [e]
  unfold linkLine
  simp only [hr, hs]
  by_cases hlab : label = "" <;> cases hlist : st.list <;>
    simp [closeList, Writer.WriteString, gatewayParagraph, hlab, hlist, hpre, gateway_text]

/-- C13 (witness): with the base `gemini://example.org/a/`, the line `=> b.gmi Next` gives a
gateway anchor for `gemini://example.org/a/b.gmi` and a badge anchor to that same URL. -/
theorem geminiLine_gemini_link_witness :
    gatewayParagraph sampleEnv (sampleEnv.urlString nextURL) "Next" =
      "<p><a href=\"/?url=gemini%3A%2F%2Fexample.org%2Fa%2Fb.gmi\">Next</a> " ++
      "<span class=\"scheme\"><a href=\"gemini://example.org/a/b.gmi\">[gemini]</a></span></p>\n" ∧
    (geminiLine sampleEnv sampleURL startLoop "=> b.gmi Next\n").w.calls =
      startLoop.w.calls ++ (if startLoop.list = true then ["</ul>\n"] else []) ++
        [gatewayParagraph sampleEnv (sampleEnv.urlString nextURL) "Next"] ∧
    (geminiLine sampleEnv sampleURL startLoop "=> b.gmi Next\n").list = false ∧
    (geminiLine sampleEnv sampleURL startLoop "=> b.gmi Next\n").pre = false ∧
    (geminiLine sampleEnv sampleURL startLoop "=> b.gmi Next\n").fault = startLoop.fault :=
  ⟨by decide,
    geminiLine_gemini_link sampleEnv sampleURL startLoop "=> b.gmi Next\n" "b.gmi" "Next" nextURL
      (by decide) (by decide) (by decide) (by decide) (by decide)⟩

/-- C14: a line read outside preformat and classified as a link line, whose target resolves
without error to the URL `a` of a scheme other than `gemini`, is written as exactly one
paragraph of the same two-anchor shape: the primary anchor points at the text of `a` itself,
with no gateway address and no escaping, and the badge anchor points at the same text and
is marked with the scheme of `a` in brackets. The only other write is the close marker of a
list that was open; afterwards no list is open. -/
theorem geminiLine_other_link (env : Env) (u : URL) (st : Loop) (line target label : String)
    (a : URL) (hpre : st.pre = false) (hc : classify env line = .LinkLine)
    (hl : env.reGemLink line = some (target, label))
    (hr : env.absoluteURL u target = (some a, none)) (hs : a.Scheme ≠ "gemini") :
    (geminiLine env u st line).w.calls =
      st.w.calls ++ (if st.list = true then ["</ul>\n"] else []) ++
        [directParagraph (env.urlString a) label a.Scheme] ∧
    (geminiLine env u st line).list = false ∧
    (geminiLine env u st line).pre = false ∧
    (geminiLine env u st line).fault = st.fault := by
  obtain ⟨h1, h2, h3, h4, h5⟩ := classify_link env line hc
  have e : geminiLine env u st line = linkLine env u st line target label := by
    simp [geminiLine, h1, h2, h3, h4, h5, hl, hpre]
  rw [e]
  unfold linkLine
  simp only [hr, hs]
  by_cases hlab : label = "" <;> cases hlist : st.list <;>
    simp [closeList, Writer.WriteString, directParagraph, hlab, hlist, hpre, direct_text]

/-- C14 (witness): the line `=> https://example.com/x Web` gives two anchors to
`https://example.com/x`, the badge marked `[https]`. -/
theorem geminiLine_other_link_witness :
    directParagraph (sampleEnv.urlString webURL) "Web" webURL.Scheme =
      "<p><a href=\"https://example.com/x\">Web</a> " ++
      "<span class=\"scheme\"><a href=\"https://example.com/x\">[https]</a></span></p>\n" ∧
    (geminiLine sampleEnv sampleURL startLoop "=> https://example.com/x Web\n").w.calls =
      startLoop.w.calls ++ (if startLoop.list = true then ["</ul>\n"] else []) ++
        [directParagraph (sampleEnv.urlString webURL) "Web" webURL.Scheme] ∧
    (geminiLine sampleEnv sampleURL startLoop "=> https://example.com/x Web\n").list = false ∧
    (geminiLine sampleEnv sampleURL startLoop "=> https://example.com/x Web\n").pre = false ∧
    (geminiLine sampleEnv sampleURL startLoop "=> https://example.com/x Web\n").fault =
      startLoop.fault :=
  ⟨by decide,
    geminiLine_other_link sampleEnv sampleURL startLoop "=> https://example.com/x Web\n"
      "https://example.com/x" "Web" webURL
      (by decide) (by decide) (by decide) (by decide) (by decide)⟩

/-- C15: for a status line that the status pattern accepts and whose first byte `b` is none
of 1, 2, 3, `proxyGemini` returns the request URL `u` and a non-nil error whose text is
`proxyGemini: status: ` followed by the full status line; nothing is written to the
response writer and the transcoder is not called. -/
theorem proxyGemini_unhandled_status (env : Env) (conn : Conn) (w : Writer) (u : URL)
    (status rd : String) (b : Char) (hs : conn.Serves status rd)
    (hm : env.reStatus status = true) (hb : status.data.head? = some b)
    (h1 : b ≠ '1') (h2 : b ≠ '2') (h3 : b ≠ '3') :
    (proxyGemini env conn w u).ret =
      .returned (u, some ("proxyGemini: status: " ++ status)) ∧
    (proxyGemini env conn w u).w = w ∧
    (proxyGemini env conn w u).transcoded = [] := by
  obtain ⟨hd, hr⟩ := hs
  simp [proxyGemini, hd, hr, hm, hb, h1, h2, h3]

/-- C15 (witness): the sample server answers `51 Not found`. -/
theorem proxyGemini_unhandled_status_witness :
    (proxyGemini sampleEnv notFoundConn okWriter sampleURL).ret =
      .returned (sampleURL, some ("proxyGemini: status: " ++ "51 Not found\r\n")) ∧
    (proxyGemini sampleEnv notFoundConn okWriter sampleURL).w = okWriter ∧
    (proxyGemini sampleEnv notFoundConn okWriter sampleURL).transcoded = [] :=
  proxyGemini_unhandled_status sampleEnv notFoundConn okWriter sampleURL "51 Not found\r\n" ""
    '5' ⟨rfl, by decide⟩ (by decide) (by decide) (by decide) (by decide) (by decide)

/-- C16: whatever the network does, the address `proxyGemini` dials is `u.Hostname()`, a
colon, and the port: `u.Port()` when it is not empty, `1965` otherwise. -/
theorem proxyGemini_endpoint (env : Env) (conn : Conn) (w : Writer) (u : URL) :
    (proxyGemini env conn w u).addr =
      env.Hostname u ++ ":" ++ (if env.Port u ≠ "" then env.Port u else "1965") := by
  unfold proxyGemini
  simp only []
  repeat' split
  all_goals rfl

/-- C17 (counterexample): inside a preformatted block the line `plain`, which matches no
pattern, is written as it is, without the line break of the plain-text rendering; and the
empty line, which matches the blank pattern, is written as it is, not as a line break. -/
theorem geminiLine_preformat_not_classified :
    classify sampleEnv "plain\n" = .PlainText ∧
    (geminiLine sampleEnv sampleURL preLoop "plain\n").w.calls = ["plain\n"] ∧
    (renderAs sampleEnv sampleURL preLoop "plain\n" .PlainText).w.calls = ["plain\n<br>\n"] ∧
    classify sampleEnv "\n" = .Blank ∧
    (geminiLine sampleEnv sampleURL preLoop "\n").w.calls = ["\n"] ∧
    (renderAs sampleEnv sampleURL preLoop "\n" .Blank).w.calls = ["<br>\n"] := by
  decide

/-- C17 (amended): a line that is read outside preformat, or that matches the fence pattern,
is rendered as its classification and as nothing else: the loop body does exactly what the
rendering of the first variant whose pattern matches does, in the order fence, blank,
heading 1, heading 2, heading 3, link, list item, quote, plain text. The pattern of that
variant matches the line, and no variant whose pattern matches comes before it in the
order. The plain-text rendering, which a line matching no pattern gets, is the one write of
the raw line followed by `<br>` and a newline, with no change of the flags. -/
theorem geminiLine_classified (env : Env) (u : URL) (st : Loop) (line : String)
    (h : st.pre = false ∨ env.reGemPre line = true) :
    geminiLine env u st line = renderAs env u st line (classify env line) ∧
    matchesClass env line (classify env line) = true ∧
    (∀ k, matchesClass env line k = true →
      classOrder.indexOf (classify env line) ≤ classOrder.indexOf k) ∧
    (renderAs env u st line .PlainText).w.calls = st.w.calls ++ [line ++ "<br>\n"] ∧
    (renderAs env u st line .PlainText).list = st.list ∧
    (renderAs env u st line .PlainText).pre = st.pre :=
  ⟨geminiLine_eq_renderAs env u st line h, classify_matches env line,
    fun k hk => classify_earliest env line k hk, rfl, rfl, rfl⟩

/-- C17 (witness): with a quote pattern that matches every line, the line `# T` matches the
heading pattern and the quote pattern, and is rendered as a heading only. -/
theorem geminiLine_classified_witness :
    matchesClass overlapEnv "# T\n" .Quote = true ∧
    classify overlapEnv "# T\n" = .Header1 ∧
    (geminiLine overlapEnv sampleURL startLoop "# T\n").w.calls = ["<h1>T</h1>\n"] ∧
    (geminiLine overlapEnv sampleURL startLoop "# T\n" =
        renderAs overlapEnv sampleURL startLoop "# T\n" (classify overlapEnv "# T\n") ∧
      matchesClass overlapEnv "# T\n" (classify overlapEnv "# T\n") = true ∧
      (∀ k, matchesClass overlapEnv "# T\n" k = true →
        classOrder.indexOf (classify overlapEnv "# T\n") ≤ classOrder.indexOf k) ∧
      (renderAs overlapEnv sampleURL startLoop "# T\n" .PlainText).w.calls =
        startLoop.w.calls ++ ["# T\n" ++ "<br>\n"] ∧
      (renderAs overlapEnv sampleURL startLoop "# T\n" .PlainText).list = startLoop.list ∧
      (renderAs overlapEnv sampleURL startLoop "# T\n" .PlainText).pre = startLoop.pre) :=
  ⟨by decide, by decide, by decide,
    geminiLine_classified overlapEnv sampleURL startLoop "# T\n" (Or.inl rfl)⟩

/-- C18: whenever `geminiToHTML` returns, the write that follows the output of the last line
of the body is the footer text (then the `Internal Server Error` notice when the footer
failed): the loop writes nothing at the end of the stream, in particular no `</ul>` and no
`</pre>`, and the two flags are returned as the last line left them, so a list or a
preformatted block that is open after the last line stays open. -/
theorem geminiToHTML_end_of_stream (env : Env) (w : Writer) (u : URL) (rd : String)
    (e : GoError) (hret : (geminiToHTML env w u rd).ret = .returned e) :
    (geminiToHTML env w u rd).w.calls =
      (afterLastLine env w u rd).w.calls ++
        [(env.tmpls "footer-only.html.tmpl" (pageData env u)).1] ++
        (if e.isSome then ["Internal Server Error\n"] else []) ∧
    (geminiToHTML env w u rd).list = (afterLastLine env w u rd).list ∧
    (geminiToHTML env w u rd).pre = (afterLastLine env w u rd).pre := by
  have hf := loopEnd_fault_of_returned env w u rd e hret
  have hl := loopEnd_eq_afterLastLine env w u rd hf
  unfold geminiToHTML at hret ⊢
  simp only [hf] at hret ⊢
  simp only [ExecuteTemplate, Writer.WriteString, Outcome.returned.injEq] at hret ⊢
  subst hret
  rw [← hl]
  refine ⟨?_, rfl, rfl⟩
  split <;> simp_all [httpError, Writer.WriteString]

/-- C18 (witness): the body `* a`, a fence line, `x` ends with a list and a preformatted
block open; the writes after the header are the list open, the item, the block open, the
line `x`, and then the footer. -/
theorem geminiToHTML_end_of_stream_witness :
    (geminiToHTML sampleEnv okWriter sampleURL "* a\n\x60\x60\x60\nx").ret = .returned none ∧
    (afterLastLine sampleEnv okWriter sampleURL "* a\n\x60\x60\x60\nx").list = true ∧
    (afterLastLine sampleEnv okWriter sampleURL "* a\n\x60\x60\x60\nx").pre = true ∧
    (geminiToHTML sampleEnv okWriter sampleURL "* a\n\x60\x60\x60\nx").w.calls.drop 1 =
      ["<ul>", "<li>a</li>\n", "<pre>\n", "x",
       "<!-- footer-only.html.tmpl Gneto gemini://example.org/a/ -->\n"] ∧
    ((geminiToHTML sampleEnv okWriter sampleURL "* a\n\x60\x60\x60\nx").w.calls =
      (afterLastLine sampleEnv okWriter sampleURL "* a\n\x60\x60\x60\nx").w.calls ++
        [(sampleEnv.tmpls "footer-only.html.tmpl" (pageData sampleEnv sampleURL)).1] ++
        (if (none : GoError).isSome then ["Internal Server Error\n"] else []) ∧
    (geminiToHTML sampleEnv okWriter sampleURL "* a\n\x60\x60\x60\nx").list =
      (afterLastLine sampleEnv okWriter sampleURL "* a\n\x60\x60\x60\nx").list ∧
    (geminiToHTML sampleEnv okWriter sampleURL "* a\n\x60\x60\x60\nx").pre =
      (afterLastLine sampleEnv okWriter sampleURL "* a\n\x60\x60\x60\nx").pre) :=
  ⟨by decide, by decide, by decide, by decide,
    geminiToHTML_end_of_stream sampleEnv okWriter sampleURL "* a\n\x60\x60\x60\nx" none
      (by decide)⟩

/-- C19: count, among the writes of the line loop of `geminiToHTML`, the list opens `<ul>`
and the list closes (`</ul>` with or without a newline). After every number `n` of lines
processed, the opens are the closes plus one when the list flag is set, and exactly the
closes when it is not. Hence at every point `m` of the sequence of writes the closes never
outnumber the opens (no close without an unmatched open before it) and the opens exceed the
closes by at most one (lists never nest). -/
theorem geminiLoop_list_balance (env : Env) (w : Writer) (u : URL) (rd : String) (n m : Nat) :
    (loopCalls env u (loopStart env w u) ((readLines rd).take n)).count "<ul>" =
      (loopCalls env u (loopStart env w u) ((readLines rd).take n)).count "</ul>\n" +
      (loopCalls env u (loopStart env w u) ((readLines rd).take n)).count "</ul>" +
      (if (geminiLoop env u (loopStart env w u) ((readLines rd).take n)).list = true
        then 1 else 0) ∧
    ((loopCalls env u (loopStart env w u) (readLines rd)).take m).count "</ul>\n" +
      ((loopCalls env u (loopStart env w u) (readLines rd)).take m).count "</ul>" ≤
      ((loopCalls env u (loopStart env w u) (readLines rd)).take m).count "<ul>" ∧
    ((loopCalls env u (loopStart env w u) (readLines rd)).take m).count "<ul>" ≤
      ((loopCalls env u (loopStart env w u) (readLines rd)).take m).count "</ul>\n" +
      ((loopCalls env u (loopStart env w u) (readLines rd)).take m).count "</ul>" + 1 := by
  refine ⟨geminiLoop_line_balance env w u rd n, ?_⟩
  have h := geminiLoop_take_balance env u (readLines rd) (loopStart env w u) m
  have hc := listBalance_eq_count ((loopCalls env u (loopStart env w u) (readLines rd)).take m)
  have hs : flagValue (loopStart env w u).list = 0 := rfl
  rw [hs, hc] at h
  omega

/-- C20 (evaluation at the failing input): the body `=> :bad`, fence line, has two newline
bytes and is read as three lines. The loop body runs on the first line only: the target
of the link does not resolve, the link branch panics on the nil URL, and the fence line and
the empty last line are never processed. -/
theorem geminiToHTML_lines_lost_after_fault :
    faultBody.data.count '\n' = 2 ∧
    readLines faultBody = ["=> :bad\n", "\x60\x60\x60\n", ""] ∧
    linesRun sampleEnv sampleURL (loopStart sampleEnv okWriter sampleURL) (readLines faultBody) =
      ["=> :bad\n"] ∧
    (geminiToHTML sampleEnv okWriter sampleURL faultBody).ret =
      .panicked "invalid memory address or nil pointer dereference" := by
  decide

end Gneto
